import Mathlib

/-!
Verification of `csv_import_hornetsecurity` — a CSV-to-invoice import app.

The source file under scrutiny is
`csv_import_hornetsecurity/doctype/csv_import_hornetsecurity_settings/csv_import_hornetsecurity_settings.py`.
Pure string and number handling is translated directly.  The frappe
document-store platform (customer/item/invoice/currency records, inserts,
`calculate_taxes_and_totals`, settings persistence) is an external
collaborator; it is modelled by an explicit `Env` carrying the lookup
tables the code queries and boolean oracles for the call sites whose
exceptions the code guards.  Machine floats are modelled as exact
rationals (`ℚ`).
-/

namespace CsvImportHornetsecurity

/-! ## String utilities: Python `str.strip` and `str.replace(',', '.')` -/

/-- Whitespace characters stripped by Python's `str.strip()` (ASCII subset). -/
def isWs (c : Char) : Bool :=
  c == ' ' || c == '\t' || c == '\n' || c == '\r' || c == '\x0b' || c == '\x0c'

/-- Strip `isWs` characters from both ends of a character list. -/
def stripChars (cs : List Char) : List Char :=
  ((cs.dropWhile isWs).reverse.dropWhile isWs).reverse

/-- Model of Python `s.strip()`. -/
def pstrip (s : String) : String := ⟨stripChars s.data⟩

/-- The character substitution performed by `str.replace(',', '.')`. -/
def commaDot (c : Char) : Char := if c = ',' then '.' else c

/-- Model of Python `s.replace(',', '.')` (both arguments are single chars,
so the replacement is a character map). -/
def commaToDot (s : String) : String := ⟨s.data.map commaDot⟩

/-- Model of Python `s.upper()` (ASCII characters, which is all the
importer compares). -/
def pupper (s : String) : String := ⟨s.data.map Char.toUpper⟩

/-! ## Number parsing: `convert_german_number` (source lines 226–233)

`frappe.utils.flt` applies Python `float()` and yields `0` on failure.
`parsePyFloat` models CPython `float(str)` on the grammar
`[ws] [sign] (digits [. digits] | . digits) [ws]`; strings outside this
grammar (exponents, `inf`, `nan`, underscores) are treated as unparsable,
which is faithful for every value this importer meets. -/

/-- Numeric value of a digit list, most significant first. -/
def digitsToNat (cs : List Char) : ℕ :=
  cs.foldl (fun a c => a * 10 + (c.toNat - 48)) 0

/-- Split a leading sign character off a character list. -/
def parseSign : List Char → Bool × List Char
  | '-' :: r => (true, r)
  | '+' :: r => (false, r)
  | cs => (false, cs)

/-- Apply a parsed sign. -/
def applySign (neg : Bool) (q : ℚ) : ℚ := if neg then -q else q

/-- Parse a whitespace-stripped character list as a decimal literal. -/
def parseCore (cs : List Char) : Option ℚ :=
  let sgn := parseSign cs
  let ip := sgn.2.takeWhile Char.isDigit
  let rest := sgn.2.dropWhile Char.isDigit
  match rest with
  | [] => if ip = [] then none else some (applySign sgn.1 (digitsToNat ip))
  | '.' :: fp =>
    if fp.all Char.isDigit && !(ip = [] && fp = []) then
      some (applySign sgn.1 ((digitsToNat ip : ℚ) + (digitsToNat fp : ℚ) / (10 : ℚ) ^ fp.length))
    else none
  | _ => none

/-- Model of CPython `float(s)` restricted to plain decimal literals. -/
def parsePyFloat (s : String) : Option ℚ :=
  parseCore (stripChars s.data)

/-- Source lines 226–233: `convert_german_number` replaces the comma with a
period and parses, returning `0.0` for empty or unparsable input. -/
def convert_german_number (s : String) : ℚ :=
  if s = "" then 0 else (parsePyFloat (commaToDot s)).getD 0

/-! ## Data model: CSV rows and the grouping phase (source lines 53–111) -/

/-- One CSV line as produced by `csv.DictReader` on the importer's columns;
fields are the raw cell strings (stripping happens where the source strips). -/
structure Row where
  customerRef : String
  productCode : String
  product : String
  licensesCount : String
  pricePerLicense : String
  customerTotal : String
  currency : String
deriving DecidableEq, Repr

/-- One value of the `customer_product_data` dict (source lines 95–101). -/
structure GroupData where
  customer_ref_nr : String
  product_code : String
  currency : String
  rows : List Row
deriving DecidableEq, Repr

/-- First-match lookup in an insertion-ordered association list, the model of
reading a Python dict entry. -/
def alFind {α : Type} (al : List (String × α)) (k : String) : Option α :=
  (al.find? (fun p => p.1 = k)).map (fun p => p.2)

/-- Replace the first entry with the given key, the model of writing an
existing Python dict entry. -/
def alUpdate {α : Type} : List (String × α) → String → α → List (String × α)
  | [], _, _ => []
  | p :: rest, k, v => if p.1 = k then (k, v) :: rest else p :: alUpdate rest k v

/-- Source lines 83–91: the per-row product identifier — the product code
itself, except that a code whose uppercase form is `OTHER` is replaced by
`OTHER_` followed by the stripped product name. -/
def keyIdentifier (code pname : String) : String :=
  if pupper code = "OTHER" then "OTHER_" ++ pname else code

/-- Source line 93: the grouping key `f"{customer_ref_nr}|{key_identifier}"`
computed from a row (with the stripping the source applies first). -/
def rowKey (r : Row) : String :=
  pstrip r.customerRef ++ "|" ++ keyIdentifier (pstrip r.productCode) (pstrip r.product)

/-- Mutable state of the row loop (source lines 56–58). -/
structure ParseState where
  groups : List (String × GroupData)
  total_licenses_before : ℚ
  errors : List String
deriving DecidableEq, Repr

/-- Source lines 95–107: place a validated row into `customer_product_data`,
emitting a currency-mismatch error when the stored currency differs. -/
def addToGroup (st : ParseState) (ref code curr ident : String) (r : Row) : ParseState :=
  match alFind st.groups (ref ++ "|" ++ ident) with
  | none =>
    { st with groups := st.groups ++ [(ref ++ "|" ++ ident, ⟨ref, code, curr, [r]⟩)] }
  | some g =>
    { st with
        errors :=
          if g.currency ≠ curr then
            st.errors ++ ["Currency mismatch for " ++ ref ++ "-" ++ ident ++ ": " ++
              g.currency ++ " vs " ++ curr]
          else st.errors,
        groups := alUpdate st.groups (ref ++ "|" ++ ident) { g with rows := g.rows ++ [r] } }

/-- Source lines 64–111: one iteration of the row loop, `i` the 0-based row
index (line number in messages is `i + 2`, accounting for the header). -/
def processRow (st : ParseState) (i : ℕ) (r : Row) : ParseState :=
  let ref := pstrip r.customerRef
  let code := pstrip r.productCode
  let lic := pstrip r.licensesCount
  let curr := pstrip r.currency
  if ref = "" then
    { st with errors := st.errors ++ ["Missing Customer Reference Number in line " ++ toString (i + 2)] }
  else if code = "" then
    { st with errors := st.errors ++ ["Missing Product Code in line " ++ toString (i + 2)] }
  else
    let st1 := { st with total_licenses_before := st.total_licenses_before + |convert_german_number lic| }
    if pupper code = "OTHER" then
      let pname := pstrip r.product
      if pname = "" then
        { st1 with errors := st1.errors ++ ["Missing Product name for OTHER product in line " ++ toString (i + 2)] }
      else addToGroup st1 ref code curr ("OTHER_" ++ pname) r
    else addToGroup st1 ref code curr code r

/-- The row loop of source lines 64–111, threading the 0-based index. -/
def parseLoop : ℕ → List Row → ParseState → ParseState
  | _, [], st => st
  | i, r :: rest, st => parseLoop (i + 1) rest (processRow st i r)

/-- The complete grouping phase applied to the parsed CSV rows. -/
def parsePhase (rows : List Row) : ParseState :=
  parseLoop 0 rows ⟨[], 0, []⟩

/-! ## Aggregation per key (source lines 122–151) -/

/-- The four accumulators of the aggregation loop. -/
structure Agg where
  total_qty : ℚ
  total_amount : ℚ
  rate : ℚ
  product_name : String
deriving DecidableEq, Repr

/-- Source lines 128–137: one iteration of the aggregation loop.  Quantities
and amounts accumulate; `rate` and `product_name` are overwritten, so the
last contributing row wins.  (The guarded `except` there is dead code:
`convert_german_number` never raises.) -/
def aggStep (a : Agg) (r : Row) : Agg :=
  { total_qty := a.total_qty + convert_german_number r.licensesCount,
    total_amount := a.total_amount + convert_german_number r.customerTotal,
    rate := convert_german_number r.pricePerLicense,
    product_name := pstrip r.product }

/-- Aggregate all rows of one `customer_product_data` entry. -/
def aggregateRows (rows : List Row) : Agg :=
  rows.foldl aggStep ⟨0, 0, 0, ""⟩

/-- One entry appended to `customer_invoices[customer_ref_nr]`
(source lines 144–151). -/
structure LineItem where
  product_code : String
  product_name : String
  currency : String
  total_qty : ℚ
  rate : ℚ
  total_amount : ℚ
deriving DecidableEq, Repr

/-- Source lines 116–151: one iteration of the invoice-grouping loop — the
customer key is created unconditionally, the aggregated line is kept only
when its total quantity is positive. -/
def buildStep (ci : List (String × List LineItem)) (p : String × GroupData) :
    List (String × List LineItem) :=
  let data := p.2
  let ref := data.customer_ref_nr
  let ci1 := if (alFind ci ref).isSome then ci else ci ++ [(ref, [])]
  let a := aggregateRows data.rows
  if 0 < a.total_qty then
    alUpdate ci1 ref ((alFind ci1 ref).getD [] ++
      [{ product_code := data.product_code, product_name := a.product_name,
         currency := data.currency, total_qty := a.total_qty,
         rate := a.rate, total_amount := a.total_amount }])
  else ci1

/-- The invoice-grouping loop over all `customer_product_data` entries. -/
def buildCustomerInvoices (groups : List (String × GroupData)) :
    List (String × List LineItem) :=
  groups.foldl buildStep []

/-! ## External document store: records and environment

The frappe platform is the external collaborator.  Records carry exactly
the fields the importer reads or writes; queries are first-match scans of
the corresponding table, mirroring `frappe.get_all(..., limit=1)` /
`[0]` access.  Call sites whose exceptions the source guards are given
boolean failure oracles. -/

/-- A `Customer` record as queried by
`filters={'custom_interne_kundennummer': ...}, fields=['name', 'customer_name']`. -/
structure CustomerRec where
  custom_interne_kundennummer : String
  name : String
  customer_name : String
deriving DecidableEq, Repr

/-- An `Item` record with the fields the importer reads and writes. -/
structure ItemRec where
  name : String
  item_code : String
  item_name : String
  description : String
  item_group : String
  stock_uom : String
  is_stock_item : Bool
  is_sales_item : Bool
  custom_externe_artikelnummer : String
deriving DecidableEq, Repr

/-- A `Currency Exchange` record (source lines 317–344). -/
structure ExchangeRec where
  from_currency : String
  to_currency : String
  date : String
  for_selling : Bool
  exchange_rate : ℚ
deriving DecidableEq, Repr

/-- One row of the per-customer discount child table
`hornetsecurity_rabattwerte_je_kunde`. -/
structure DiscountRow where
  kundenname : String
  rabatt_wert_in_prozent : ℚ
deriving DecidableEq, Repr

/-- The fields of `CSV Import Hornetsecurity Settings` the importer reads
(`tax_account = ""` models an unset tax account). -/
structure Settings where
  artikelgruppe : String
  nullrechnungen_unterdruecken : Bool
  tax_account : String
  hornetsecurity_rabattwerte_je_kunde : List DiscountRow
deriving DecidableEq, Repr

/-- One line item appended to the sales invoice (source lines 580–587). -/
structure InvItem where
  item_code : String
  customer_item_code : String
  description : String
  qty : ℚ
  rate : ℚ
  amount : ℚ
deriving DecidableEq, Repr

/-- The tax line appended to the sales invoice (source lines 608–613). -/
structure TaxLine where
  charge_type : String
  account_head : String
  rate : ℚ
  description : String
deriving DecidableEq, Repr

/-- The sales-invoice document as assembled before `insert`
(source lines 564–613). -/
structure Invoice where
  customer : String
  currency : String
  conversion_rate : ℚ
  posting_date : String
  due_date : String
  items : List InvItem
  additional_discount_percentage : ℚ
  taxes : List TaxLine
deriving DecidableEq, Repr

/-- The external platform: lookup tables, values the platform computes
(`today`, default currency, the dynamically resolved tax rate, the grand
total produced by `calculate_taxes_and_totals`), and failure oracles for
the guarded external call sites. -/
structure Env where
  customers : List CustomerRec
  items0 : List ItemRec
  exchangeTable : List ExchangeRec
  currencyExists : String → Bool
  companyDefaultCurrency : String
  todayStr : String
  dueDateStr : String
  dynamicTaxRate : ℚ
  grandTotal : Invoice → ℚ
  insertItemFails : String → Bool
  insertInvoiceFails : String → Bool
  getDocFails : Bool
  getDocMsg : String
  parseFails : Bool
  parseMsg : String
  saveSettingsFails : Bool
  saveMsg : String

/-- Source lines 161–164 / 548–551: first customer whose
`custom_interne_kundennummer` equals the reference number. -/
def lookupCustomer (env : Env) (ref : String) : Option CustomerRec :=
  env.customers.find? (fun c => c.custom_interne_kundennummer = ref)

/-- First item whose `item_code` matches (source lines 360–363). -/
def lookupItemByCode (items : List ItemRec) (code : String) : Option ItemRec :=
  items.find? (fun it => it.item_code = code)

/-- First item whose `custom_externe_artikelnummer` matches
(source lines 426–429). -/
def lookupItemByExt (items : List ItemRec) (ext : String) : Option ItemRec :=
  items.find? (fun it => it.custom_externe_artikelnummer = ext)

/-! ## Currency handling (source lines 235–351) -/

/-- The literal currency table of `get_currency_mapping`
(source lines 238–260). -/
def get_currency_mapping : List (String × String) :=
  [("EUR", "EUR"), ("USD", "USD"), ("CHF", "CHF"), ("GBP", "GBP"),
   ("JPY", "JPY"), ("CNY", "CNY"), ("AUD", "AUD"), ("CAD", "CAD"),
   ("Euro", "EUR"), ("US Dollar", "USD"), ("United States Dollar", "USD"),
   ("Swiss Franc", "CHF"), ("Pound Sterling", "GBP"), ("British Pound", "GBP"),
   ("Japanese Yen", "JPY"), ("Chinese Yuan", "CNY"),
   ("Australian Dollar", "AUD"), ("Canadian Dollar", "CAD")]

/-- Source lines 282–305: map a CSV currency value to a platform currency
code, falling back to the company default. -/
def get_invoice_currency (env : Env) (csv_currency : String) : String :=
  let c := pstrip csv_currency
  match alFind get_currency_mapping c with
  | some code => code
  | none => if env.currencyExists c then c else env.companyDefaultCurrency

/-- Source lines 317–326: the exact exchange-rate query keyed by
(from, to, date, for-selling). -/
def exactExchangeLookup (tbl : List ExchangeRec) (f t date : String) :
    Option ExchangeRec :=
  tbl.find? (fun r =>
    r.from_currency = f && r.to_currency = t && r.date = date && r.for_selling)

/-- Source lines 331–341: the dateless fallback query ordered by date
descending — the matching record with the greatest date. -/
def latestExchangeLookup (tbl : List ExchangeRec) (f t : String) :
    Option ExchangeRec :=
  (tbl.filter (fun r => r.from_currency = f && r.to_currency = t && r.for_selling)).foldl
    (fun best r =>
      match best with
      | none => some r
      | some b => if b.date < r.date then some r else some b) none

/-- Source lines 307–351: `get_conversion_rate` with the default exchange
date `today()` — same pair gives `1.0`, then the exact dated query, then
the dateless latest query, then `1.0`. -/
def get_conversion_rate (env : Env) (f t : String) : ℚ :=
  if f = t then 1
  else
    match exactExchangeLookup env.exchangeTable f t env.todayStr with
    | some r => r.exchange_rate
    | none =>
      match latestExchangeLookup env.exchangeTable f t with
      | some r => r.exchange_rate
      | none => 1

/-- Source lines 637–645: first discount row whose non-empty stripped
`kundenname` equals the stripped customer name. -/
def get_customer_discount (customer_name : String) (tbl : List DiscountRow) : ℚ :=
  match tbl.find? (fun row =>
      row.kundenname ≠ "" && pstrip row.kundenname = pstrip customer_name) with
  | some row => row.rabatt_wert_in_prozent
  | none => 0

/-! ## Item resolution and OTHER item creation (source lines 353–450) -/

/-- The new `Item` document built for an OTHER product
(source lines 370–377). -/
def newOtherItem (product_name item_group : String) : ItemRec :=
  { name := product_name, item_code := product_name, item_name := product_name,
    description := "", item_group := item_group, stock_uom := "Stk",
    is_stock_item := false, is_sales_item := true,
    custom_externe_artikelnummer := "OTHER" }

/-- Source lines 353–387: `create_item_for_other_product` — reuse the first
item whose code equals the product name, otherwise insert a fresh one
(`insert` may fail, caught and logged).  Returns the item name, the item
table after the call, and the creation log. -/
def create_item_for_other_product (env : Env) (items : List ItemRec)
    (product_name item_group : String) (log : List String) :
    Option String × List ItemRec × List String :=
  match lookupItemByCode items product_name with
  | some it =>
    (some it.name, items,
     log ++ ["Item " ++ product_name ++ " already exists, using existing item"])
  | none =>
    if env.insertItemFails product_name then
      (none, items, log ++ ["Failed to create item " ++ product_name ++ ": insert failed"])
    else
      (some product_name, items ++ [newOtherItem product_name item_group],
       log ++ ["Created new item: " ++ product_name])

/-- An `item_data` dict after resolution added `item_code`, `item_name` and
`description` (source lines 420–422 / 435–437). -/
structure ResolvedItem where
  product_code : String
  product_name : String
  currency : String
  total_qty : ℚ
  rate : ℚ
  total_amount : ℚ
  item_code : String
  item_name : String
  description : String
deriving DecidableEq, Repr

/-- Copy a line item and attach the resolved catalog fields. -/
def resolveWith (l : LineItem) (ic iname desc : String) : ResolvedItem :=
  { product_code := l.product_code, product_name := l.product_name,
    currency := l.currency, total_qty := l.total_qty, rate := l.rate,
    total_amount := l.total_amount, item_code := ic, item_name := iname,
    description := desc }

/-- Source lines 393–448: the body of the validation loop for one line —
the OTHER branch (configured item group, non-empty name, dynamic item
creation) or the external-article-number lookup, then the quantity gate.
Returns the kept item (if any) plus the threaded item table, error list
and creation log. -/
def validateStep (env : Env) (settings : Settings) (ref : String) (l : LineItem)
    (items : List ItemRec) (errors log : List String) :
    Option ResolvedItem × List ItemRec × List String × List String :=
  let resolved :
      Option ResolvedItem × List ItemRec × List String × List String :=
    if pupper l.product_code = "OTHER" then
      if settings.artikelgruppe = "" then
        (none, items,
         errors ++ ["Artikelgruppe not configured for OTHER items (Customer: " ++ ref ++ ")"],
         log)
      else if l.product_name = "" then
        (none, items,
         errors ++ ["Product name missing for OTHER item (Customer: " ++ ref ++ ")"],
         log)
      else
        match create_item_for_other_product env items l.product_name settings.artikelgruppe log with
        | (none, items1, log1) =>
          (none, items1,
           errors ++ ["Failed to create item for OTHER product " ++ l.product_name ++
             " (Customer: " ++ ref ++ ")"],
           log1)
        | (some ic, items1, log1) =>
          (some (resolveWith l ic l.product_name l.product_name), items1, errors, log1)
    else
      match lookupItemByExt items l.product_code with
      | none =>
        (none, items,
         errors ++ ["Item not found for product code: " ++ l.product_code ++
           " (Customer: " ++ ref ++ ")"],
         log)
      | some it =>
        (some (resolveWith l it.name it.item_name it.description), items, errors, log)
  match resolved with
  | (none, items1, errors1, log1) => (none, items1, errors1, log1)
  | (some v, items1, errors1, log1) =>
    if v.total_qty ≤ 0 then
      (none, items1,
       errors1 ++ ["Invalid quantity " ++ toString v.total_qty ++ " for product " ++
         l.product_code ++ " (Customer: " ++ ref ++ ")"],
       log1)
    else (some v, items1, errors1, log1)

/-- Result of `validate_and_process_items_hornetsecurity`. -/
structure VOut where
  valid_items : List ResolvedItem
  items : List ItemRec
  errors : List String
  log : List String
deriving DecidableEq, Repr

/-- Source lines 389–450: the validation loop, keeping items in order. -/
def validateLoop (env : Env) (settings : Settings) (ref : String) :
    List LineItem → List ItemRec → List String → List String → VOut
  | [], items, errors, log => ⟨[], items, errors, log⟩
  | l :: rest, items, errors, log =>
    match validateStep env settings ref l items errors log with
    | (none, items1, errors1, log1) => validateLoop env settings ref rest items1 errors1 log1
    | (some v, items1, errors1, log1) =>
      let out := validateLoop env settings ref rest items1 errors1 log1
      { out with valid_items := v :: out.valid_items }

/-- `validate_and_process_items_hornetsecurity` (source lines 389–450). -/
def validate_and_process_items_hornetsecurity (env : Env) (settings : Settings)
    (ref : String) (items_data : List LineItem) (items : List ItemRec)
    (errors log : List String) : VOut :=
  validateLoop env settings ref items_data items errors log

/-! ## Invoice assembly (source lines 517–635) -/

/-- Python's `a or b or c` over strings: the first non-empty value. -/
def firstNonempty (a b c : String) : String :=
  if a ≠ "" then a else if b ≠ "" then b else c

/-- Source lines 580–587: the invoice line built from one resolved item. -/
def mkInvItem (v : ResolvedItem) : InvItem :=
  { item_code := v.item_code, customer_item_code := v.product_code,
    description := firstNonempty v.description v.item_name v.product_name,
    qty := v.total_qty, rate := v.rate, amount := v.total_amount }

/-- Source lines 553–613: the invoice document as it stands when
`calculate_taxes_and_totals` runs — currency from the first line, the
conversion rate, all lines, the invoice-level discount and the tax line
(absent when no tax account is configured, which also logs an error in
`create_hornetsecurity_sales_invoice_safe`). -/
def assembleInvoice (env : Env) (settings : Settings) (cust : CustomerRec)
    (vs : List ResolvedItem) : Invoice :=
  let csv_currency := ((vs.head?).map (fun v => v.currency)).getD ""
  let invoice_currency := get_invoice_currency env csv_currency
  let conversion_rate := get_conversion_rate env invoice_currency env.companyDefaultCurrency
  let disc := get_customer_discount cust.customer_name settings.hornetsecurity_rabattwerte_je_kunde
  { customer := cust.name, currency := invoice_currency,
    conversion_rate := conversion_rate, posting_date := env.todayStr,
    due_date := env.dueDateStr, items := vs.map mkInvItem,
    additional_discount_percentage := if 0 < disc then disc else 0,
    taxes :=
      if settings.tax_account = "" then []
      else [{ charge_type := "On Net Total", account_head := settings.tax_account,
              rate := env.dynamicTaxRate,
              description := "VAT " ++ toString env.dynamicTaxRate ++ "%" }] }

/-- Source lines 543–635: `create_hornetsecurity_sales_invoice_safe` — the
customer is re-read, the invoice assembled, a missing tax account logged,
the zero-amount suppression applied, and the insert attempted (its
failure caught and logged).  Returns the saved invoice (if any) and the
error list. -/
def create_hornetsecurity_sales_invoice_safe (env : Env) (settings : Settings)
    (ref : String) (vs : List ResolvedItem) (errors : List String) :
    Option Invoice × List String :=
  match lookupCustomer env ref with
  | none =>
    (none, errors ++ ["Error creating invoice for customer " ++ ref ++ ": list index out of range"])
  | some cust =>
    if vs = [] then (none, errors)
    else
      let inv := assembleInvoice env settings cust vs
      let errors1 :=
        if settings.tax_account = "" then
          errors ++ ["No tax account configured for customer " ++ ref]
        else errors
      if settings.nullrechnungen_unterdruecken ∧ env.grandTotal inv = 0 then
        (none, errors1)
      else if env.insertInvoiceFails ref then
        (none, errors1 ++ ["Error creating invoice for customer " ++ ref ++ ": insert failed"])
      else (some inv, errors1)

/-! ## The per-customer loop and the orchestrator (source lines 23–224) -/

/-- Mutable state of the invoice-creation loop (source lines 153–156 plus
the threaded item table, error list and creation log). -/
structure LoopState where
  items : List ItemRec
  invoices : List Invoice
  invoices_created : ℕ
  total_licenses_after : ℚ
  successful_customers : List String
  errors : List String
  created_items_log : List String
deriving DecidableEq, Repr

/-- Source lines 158–189: one iteration of the per-customer loop — customer
lookup, item validation, invoice creation, and the success bookkeeping
(`total_licenses_after` grows by the sum of the saved invoice's line
quantities). -/
def customerStep (env : Env) (settings : Settings) (st : LoopState)
    (entry : String × List LineItem) : LoopState :=
  let ref := entry.1
  match lookupCustomer env ref with
  | none =>
    { st with errors := st.errors ++ ["Customer not found for reference number: " ++ ref] }
  | some _ =>
    let vo := validate_and_process_items_hornetsecurity env settings ref entry.2
      st.items st.errors st.created_items_log
    if vo.valid_items = [] then
      { st with items := vo.items, created_items_log := vo.log,
                errors := vo.errors ++ ["No valid items found for customer " ++ ref] }
    else
      match create_hornetsecurity_sales_invoice_safe env settings ref vo.valid_items vo.errors with
      | (none, errors2) =>
        { st with items := vo.items, created_items_log := vo.log, errors := errors2 }
      | (some inv, errors2) =>
        { items := vo.items, invoices := st.invoices ++ [inv],
          invoices_created := st.invoices_created + 1,
          total_licenses_after := st.total_licenses_after + (inv.items.map (fun it => it.qty)).sum,
          successful_customers := st.successful_customers ++ [ref],
          errors := errors2, created_items_log := vo.log }

/-- Source lines 647–668: `generate_hornetsecurity_report_with_items`. -/
def generate_hornetsecurity_report_with_items (licenses_before licenses_after : ℚ)
    (invoices_created : ℕ) (errors successful_customers created_items_log : List String) :
    String :=
  let ls := ["Gesamtzahl Lizenzen vorher: " ++ toString licenses_before,
             "Gesamtzahl Lizenzen nachher: " ++ toString licenses_after,
             "Gesamtzahl erz. Rechnungen: " ++ toString invoices_created]
  let ls := if successful_customers ≠ [] then
      ls ++ ["Erfolgreiche Kunden: " ++ String.intercalate ", " successful_customers]
    else ls
  let ls := if created_items_log ≠ [] then
      ls ++ ["\nNeu erstellte Artikel:"] ++ created_items_log.map (fun s => "- " ++ s)
    else ls
  let ls := if errors ≠ [] then
      ls ++ ["\nFehler (" ++ toString errors.length ++ "):"] ++ errors.map (fun s => "- " ++ s)
    else ls
  String.intercalate "\n" ls

/-- Everything the import run computes (the values behind the returned
payload plus the documents it persisted). -/
structure RunState where
  total_licenses_before : ℚ
  total_licenses_after : ℚ
  invoices_created : ℕ
  invoices : List Invoice
  items : List ItemRec
  successful_customers : List String
  errors : List String
  created_items_log : List String
  report : String
deriving DecidableEq, Repr

/-- Source lines 53–195: the import pipeline from parsed rows to the
report — grouping, aggregation, the per-customer loop, the report. -/
def runImport (env : Env) (settings : Settings) (rows : List Row) : RunState :=
  let ps := parsePhase rows
  let ci := buildCustomerInvoices ps.groups
  let fin := ci.foldl (customerStep env settings)
    ⟨env.items0, [], 0, 0, [], ps.errors, []⟩
  { total_licenses_before := ps.total_licenses_before,
    total_licenses_after := fin.total_licenses_after,
    invoices_created := fin.invoices_created,
    invoices := fin.invoices, items := fin.items,
    successful_customers := fin.successful_customers,
    errors := fin.errors, created_items_log := fin.created_items_log,
    report := generate_hornetsecurity_report_with_items ps.total_licenses_before
      fin.total_licenses_after fin.invoices_created fin.errors
      fin.successful_customers fin.created_items_log }

/-- The payload returned by `process_csv_import`: either
`{'status': 'error', 'message': ...}` with no further fields, or
`{'status': 'success', ...}` with the counts and the report. -/
inductive ImportResult where
  | error (message : String)
  | success (message : String) (invoices_created : ℕ) (errors_count : ℕ) (report : String)
deriving DecidableEq, Repr

/-- The returned payload together with the persisted documents (used to
state that the precondition failure persists nothing). -/
structure ImportOutcome where
  result : ImportResult
  invoices : List Invoice
  items : List ItemRec
  fileSaved : Bool
deriving Repr

/-- Source lines 23–224: `process_csv_import`.  The unguarded exception
sites — the settings load (line 27), the file decode / CSV parse
(lines 37–62) and the final settings save (line 209) — are the only
points where an exception escapes to the top-level handler; any other
external failure is caught inside the per-row or per-customer blocks.
The blank-`artikelgruppe` precondition (lines 29–34) returns an error
payload before the file is stored or parsed.  `save_csv_file_to_folder`
(lines 482–515) swallows its own exceptions, hence has no oracle. -/
def process_csv_import (env : Env) (settings : Settings) (rows : List Row) :
    ImportOutcome :=
  if env.getDocFails then
    ⟨.error ("Import failed: " ++ env.getDocMsg), [], env.items0, false⟩
  else if settings.artikelgruppe = "" then
    ⟨.error "Artikelgruppe field is required for handling OTHER products",
     [], env.items0, false⟩
  else if env.parseFails then
    ⟨.error ("Import failed: " ++ env.parseMsg), [], env.items0, true⟩
  else
    let st := runImport env settings rows
    if env.saveSettingsFails then
      ⟨.error ("Import failed: " ++ env.saveMsg), st.invoices, st.items, true⟩
    else
      ⟨.success ("Import completed. " ++ toString st.invoices_created ++
          " invoices created successfully. " ++ toString st.errors.length ++
          " errors logged.")
        st.invoices_created st.errors.length st.report,
       st.invoices, st.items, true⟩

/-! ## Derived quantities used to state the claims -/

/-- The contribution of one row to `total_licenses_before`
(source line 81: `abs` of the converted, stripped licenses count). -/
def rowQtyAbs (r : Row) : ℚ := |convert_german_number (pstrip r.licensesCount)|

/-- A row passes the per-row required-field validation of source
lines 71–77 (non-blank customer reference and product code). -/
def validRowB (r : Row) : Bool :=
  !(pstrip r.customerRef == "") && !(pstrip r.productCode == "")

/-- Sum of absolute license counts over the rows passing per-row
validation. -/
def beforeSpecSum (rows : List Row) : ℚ :=
  ((rows.filter validRowB).map rowQtyAbs).sum

/-- Sum of the line quantities over a list of saved invoices. -/
def invoicesQtySum (invs : List Invoice) : ℚ :=
  (invs.map (fun inv => (inv.items.map (fun it => it.qty)).sum)).sum

/-- Sum of absolute license counts over the rows of one group. -/
def groupAbsSum (g : GroupData) : ℚ :=
  (g.rows.map (fun r => |convert_german_number r.licensesCount|)).sum

/-- Sum of `groupAbsSum` over all groups. -/
def groupsAbsSum (gs : List (String × GroupData)) : ℚ :=
  (gs.map (fun p => groupAbsSum p.2)).sum

/-- Sum of the aggregated quantities over all customers' line items. -/
def ciQtySum (ci : List (String × List LineItem)) : ℚ :=
  (ci.map (fun p => (p.2.map (fun l => l.total_qty)).sum)).sum

/-- All rows stored across all groups. -/
def groupedRows (gs : List (String × GroupData)) : List Row :=
  (gs.map (fun p => p.2.rows)).flatten

/-- The per-row checks a row must pass to be grouped (source
lines 71–88): non-blank reference, non-blank code, and a non-blank
product name when the code is the OTHER sentinel. -/
def rowChecksOk (r : Row) : Prop :=
  pstrip r.customerRef ≠ "" ∧ pstrip r.productCode ≠ "" ∧
    (pupper (pstrip r.productCode) = "OTHER" → pstrip r.product ≠ "")

/-- The per-row error message (if any) the row loop emits for the row at
0-based index `n - 2` (source lines 72, 76, 87). -/
def rowErrMsg (r : Row) (n : ℕ) : Option String :=
  if pstrip r.customerRef = "" then
    some ("Missing Customer Reference Number in line " ++ toString n)
  else if pstrip r.productCode = "" then
    some ("Missing Product Code in line " ++ toString n)
  else if pupper (pstrip r.productCode) = "OTHER" ∧ pstrip r.product = "" then
    some ("Missing Product name for OTHER product in line " ++ toString n)
  else none

/-- Number of catalog items carrying a given item code. -/
def countItemsWithCode (items : List ItemRec) (code : String) : ℕ :=
  (items.filter (fun it => it.item_code = code)).length

/-- The item table after one `create_item_for_other_product` call. -/
def createdStore (env : Env) (p g : String) (items : List ItemRec) : List ItemRec :=
  (create_item_for_other_product env items p g []).2.1

/-- The item table after `n` successive `create_item_for_other_product`
calls for the same product name (one call per CSV row naming it). -/
def iterateCreate (env : Env) (p g : String) : ℕ → List ItemRec → List ItemRec
  | 0, items => items
  | n + 1, items => iterateCreate env p g n (createdStore env p g items)

/-- Whether a returned payload is the `{'status': 'error'}` shape. -/
def isErrorResult : ImportResult → Bool
  | .error _ => true
  | .success _ _ _ _ => false

/-! ## Concrete instances used by witnesses and counterexamples -/

/-- An environment with empty tables and no failing external call. -/
def baseEnv : Env :=
  { customers := [], items0 := [], exchangeTable := [],
    currencyExists := fun _ => false, companyDefaultCurrency := "EUR",
    todayStr := "2026-10-12", dueDateStr := "2026-11-12",
    dynamicTaxRate := 19, grandTotal := fun _ => 1,
    insertItemFails := fun _ => false, insertInvoiceFails := fun _ => false,
    getDocFails := false, getDocMsg := "", parseFails := false, parseMsg := "",
    saveSettingsFails := false, saveMsg := "" }

/-- Settings with a configured item group and tax account. -/
def baseSettings : Settings :=
  { artikelgruppe := "Hornetsecurity", nullrechnungen_unterdruecken := false,
    tax_account := "VAT 19 %", hornetsecurity_rabattwerte_je_kunde := [] }

/-- A row with rate 10 used by the C2 witness. -/
def rowA : Row := ⟨"C1", "P1", "Prod", "2", "10", "20", "EUR"⟩

/-- A row with a different rate, 12, used by the C2 witness. -/
def rowB : Row := ⟨"C1", "P1", "Prod", "3", "12", "36", "EUR"⟩

/-- Environment with one for-selling USD→EUR rate dated before today. -/
def envC9 : Env :=
  { baseEnv with exchangeTable := [⟨"USD", "EUR", "2025-01-01", true, 2⟩] }

/-- Environment for the C7 witness: one customer, one catalog item, and a
platform whose total calculation returns 0 for every invoice. -/
def envC7 : Env := { baseEnv with
  customers := [⟨"C1", "CUST-00001", "Alpha GmbH"⟩],
  items0 := [⟨"ITEM-P1", "P1-code", "P1 name", "P1 desc", "Hornetsecurity", "Stk", false, true, "P1"⟩],
  grandTotal := fun _ => 0 }

/-- Settings with zero-amount suppression enabled. -/
def settingsC7 : Settings := { baseSettings with nullrechnungen_unterdruecken := true }

/-- A zero-amount aggregated line for the C7 witness. -/
def lineC7 : LineItem := ⟨"P1", "Prod", "EUR", 1, 0, 0⟩

/-- Initial loop state for the C7 witness. -/
def stC7 : LoopState := ⟨envC7.items0, [], 0, 0, [], [], []⟩

/-- Every stored row's key equals the key of the dict entry holding it
(an invariant of the grouping dict). -/
def groupsConsistent (gs : List (String × GroupData)) : Prop :=
  ∀ kg ∈ gs, ∀ r ∈ kg.2.rows, rowKey r = kg.1

/-- Witness row whose customer reference strips to blank. -/
def rowBlankRef : Row := ⟨" ", "P1", "Prod", "5", "1", "5", "EUR"⟩

/-- OTHER-coded witness row (mixed case) with product name Alpha. -/
def rowOther1 : Row := ⟨"C9", "Other", "Alpha", "1", "1", "1", "EUR"⟩

/-- OTHER-coded witness row with a different product name, Beta. -/
def rowOther2 : Row := ⟨"C9", "OTHER", "Beta", "1", "1", "1", "EUR"⟩

/-- OTHER-coded witness row whose product name strips to blank. -/
def rowOtherBlank : Row := ⟨"C9", "other", " ", "1", "1", "1", "EUR"⟩

/-- Witness row list for the C5 witness. -/
def rowsC5 : List Row := [rowOther1, rowOther2, rowOtherBlank]

/-- Every aggregated line stored in the per-customer dict has a positive
quantity (the gate of source line 143). -/
def ciAllPos (ci : List (String × List LineItem)) : Prop :=
  ∀ e ∈ ci, ∀ l ∈ e.2, 0 < l.total_qty

/-- Environment for the C1 witness: one customer, one catalog item. -/
def envC1 : Env := { baseEnv with
  customers := [⟨"C1", "CUST-00001", "Alpha GmbH"⟩],
  items0 := [⟨"ITEM-P1", "P1-code", "P1 name", "P1 desc", "Hornetsecurity", "Stk", false, true, "P1"⟩] }

/-- Row with a negative licenses count, for the C1 counterexample. -/
def rowNeg : Row := ⟨"C1", "P1", "Prod", "-2", "10", "-20", "EUR"⟩

/-- Row with licenses count 5, for the C1 counterexample. -/
def rowPos5 : Row := ⟨"C1", "P1", "Prod", "5", "10", "50", "EUR"⟩


/-! # Theorems

## Facts about stripping and comma replacement -/

theorem commaDot_commaDot (c : Char) : commaDot (commaDot c) = commaDot c := by
  by_cases h : c = ','
  · subst h; decide
  · simp [commaDot, h]

theorem isWs_commaDot (c : Char) : isWs (commaDot c) = isWs c := by
  by_cases h : c = ','
  · subst h; decide
  · simp [commaDot, h]

theorem stripChars_map_commaDot (l : List Char) :
    stripChars (l.map commaDot) = (stripChars l).map commaDot := by
  have hp : (isWs ∘ commaDot) = isWs := funext isWs_commaDot
  simp [stripChars, List.dropWhile_map, hp, ← List.map_reverse]

theorem dropWhile_cons_head {α : Type} {p : α → Bool} :
    ∀ (l : List α) (x : α) (t : List α), l.dropWhile p = x :: t → p x = false
  | [], x, t, h => by simp [List.dropWhile] at h
  | a :: l, x, t, h => by
    by_cases hp : p a
    · rw [List.dropWhile_cons_of_pos hp] at h
      exact dropWhile_cons_head l x t h
    · rw [List.dropWhile_cons_of_neg hp] at h
      cases h
      simpa using hp

theorem dropWhile_eq_self_of_head {α : Type} {p : α → Bool} (l : List α)
    (h : ∀ x t, l = x :: t → p x = false) : l.dropWhile p = l := by
  cases l with
  | nil => rfl
  | cons a t => simp [List.dropWhile_cons, h a t rfl]

theorem dropWhile_idem {α : Type} {p : α → Bool} (l : List α) :
    (l.dropWhile p).dropWhile p = l.dropWhile p := by
  apply dropWhile_eq_self_of_head
  intro x t h
  exact dropWhile_cons_head l x t h

theorem dropWhile_exists_front {α : Type} {p : α → Bool} :
    ∀ (l : List α), ∃ u, u ++ l.dropWhile p = l
  | [] => ⟨[], rfl⟩
  | a :: l => by
    by_cases hp : p a
    · obtain ⟨u, hu⟩ := dropWhile_exists_front (p := p) l
      exact ⟨a :: u, by simp [List.dropWhile_cons, hp, hu]⟩
    · exact ⟨[], by simp [List.dropWhile_cons, hp]⟩

theorem stripChars_head_false (l : List Char) (x : Char) (t : List Char)
    (h : stripChars l = x :: t) : isWs x = false := by
  unfold stripChars at h
  obtain ⟨u, hu⟩ := dropWhile_exists_front (p := isWs) (l.dropWhile isWs).reverse
  have h2 := congrArg List.reverse hu
  rw [List.reverse_append, List.reverse_reverse, h] at h2
  have h3 : l.dropWhile isWs = x :: (t ++ u.reverse) := by
    rw [← h2]; simp
  exact dropWhile_cons_head l x (t ++ u.reverse) h3

theorem stripChars_idem (l : List Char) : stripChars (stripChars l) = stripChars l := by
  have h1 : (stripChars l).dropWhile isWs = stripChars l := by
    apply dropWhile_eq_self_of_head
    intro x t h
    exact stripChars_head_false l x t h
  show (((stripChars l).dropWhile isWs).reverse.dropWhile isWs).reverse = stripChars l
  rw [h1]
  unfold stripChars
  rw [List.reverse_reverse, dropWhile_idem]

theorem pstrip_empty : pstrip "" = "" := rfl

theorem pstrip_eq_empty_iff (s : String) : pstrip s = "" ↔ stripChars s.data = [] := by
  constructor
  · intro h
    have := congrArg String.data h
    simpa [pstrip] using this
  · intro h
    apply String.ext
    simpa [pstrip] using h

/-- `convert_german_number` gives the same value on the stripped and the
raw string: the parser itself strips whitespace, as Python `float` does. -/
theorem convert_german_number_pstrip (s : String) :
    convert_german_number (pstrip s) = convert_german_number s := by
  by_cases hs : s = ""
  · subst hs; rfl
  · by_cases hp : pstrip s = ""
    · have hnil : stripChars s.data = [] := (pstrip_eq_empty_iff s).mp hp
      rw [hp]
      show (0 : ℚ) = convert_german_number s
      unfold convert_german_number
      rw [if_neg hs]
      have : stripChars (commaToDot s).data = [] := by
        show stripChars (s.data.map commaDot) = []
        rw [stripChars_map_commaDot, hnil]
        rfl
      unfold parsePyFloat
      rw [this]
      rfl
    · unfold convert_german_number
      rw [if_neg hs, if_neg hp]
      unfold parsePyFloat
      congr 2
      show stripChars ((pstrip s).data.map commaDot) = stripChars (s.data.map commaDot)
      rw [stripChars_map_commaDot, stripChars_map_commaDot]
      show (stripChars (stripChars s.data)).map commaDot = _
      rw [stripChars_idem]

/-! ## Claim C8 — locale-number parsing -/

theorem commaToDot_idem (s : String) : commaToDot (commaToDot s) = commaToDot s := by
  apply String.ext
  show ((s.data.map commaDot).map commaDot) = s.data.map commaDot
  rw [List.map_map]
  exact List.map_congr_left (fun c _ => commaDot_commaDot c)

theorem commaToDot_eq_empty_iff (s : String) : commaToDot s = "" ↔ s = "" := by
  constructor
  · intro h
    have := congrArg String.data h
    simp [commaToDot] at this
    exact String.ext this
  · intro h; subst h; rfl

/-- C8: `parseLocaleNumber` treats the comma as a decimal point before
parsing (parsing a string and its comma-replaced form agree), never
raises (it is a total function into `ℚ`), and
`parseLocaleNumber("4,5") = 4.5`, `parseLocaleNumber("") = 0.0`,
`parseLocaleNumber("abc") = 0.0`. -/
theorem C8_parseLocaleNumber :
    (∀ s : String, convert_german_number s = convert_german_number (commaToDot s)) ∧
    convert_german_number "4,5" = 4.5 ∧
    convert_german_number "" = 0 ∧
    convert_german_number "abc" = 0 := by
  refine ⟨?_, ?_, by simp +decide [convert_german_number], ?_⟩
  · intro s
    by_cases hs : s = ""
    · subst hs; rfl
    · unfold convert_german_number
      rw [if_neg hs, if_neg (fun h => hs ((commaToDot_eq_empty_iff s).mp h))]
      rw [commaToDot_idem]
  · have h : ("4,5").data = ['4', ',', '5'] := rfl
    simp +decide [convert_german_number, commaToDot, parsePyFloat, parseCore,
      stripChars, parseSign, digitsToNat, applySign, commaDot, isWs, h]
    norm_num
  · have h : ("abc").data = ['a', 'b', 'c'] := rfl
    simp +decide [convert_german_number, commaToDot, parsePyFloat, parseCore,
      stripChars, parseSign, digitsToNat, applySign, commaDot, isWs, h]

/-! ## Claim C2 — aggregation: sums are order-invariant, rate is last-wins -/

theorem aggLoop_total_qty (rows : List Row) :
    ∀ a : Agg, (rows.foldl aggStep a).total_qty =
      a.total_qty + (rows.map (fun r => convert_german_number r.licensesCount)).sum := by
  induction rows with
  | nil => intro a; simp
  | cons r rest ih =>
    intro a
    simp only [List.foldl_cons, List.map_cons, List.sum_cons]
    rw [ih]
    simp [aggStep]
    ring

theorem aggLoop_total_amount (rows : List Row) :
    ∀ a : Agg, (rows.foldl aggStep a).total_amount =
      a.total_amount + (rows.map (fun r => convert_german_number r.customerTotal)).sum := by
  induction rows with
  | nil => intro a; simp
  | cons r rest ih =>
    intro a
    simp only [List.foldl_cons, List.map_cons, List.sum_cons]
    rw [ih]
    simp [aggStep]
    ring

theorem aggregateRows_total_qty (rows : List Row) :
    (aggregateRows rows).total_qty =
      (rows.map (fun r => convert_german_number r.licensesCount)).sum := by
  unfold aggregateRows
  rw [aggLoop_total_qty]
  simp

theorem aggregateRows_total_amount (rows : List Row) :
    (aggregateRows rows).total_amount =
      (rows.map (fun r => convert_german_number r.customerTotal)).sum := by
  unfold aggregateRows
  rw [aggLoop_total_amount]
  simp

/-- C2: for a fixed aggregate key, `total_qty` and `total_amount` are the
sums of the contributing rows' Licenses Count and Customer Total and are
invariant under any permutation of those rows, while `rate` equals the
Customer Price Per License of the last row processed (last-wins). -/
theorem C2_aggregation_order (rows rows' rest : List Row) (last : Row)
    (hperm : rows.Perm rows') (hlast : rows = rest ++ [last]) :
    (aggregateRows rows).total_qty =
      (rows.map (fun r => convert_german_number r.licensesCount)).sum ∧
    (aggregateRows rows).total_amount =
      (rows.map (fun r => convert_german_number r.customerTotal)).sum ∧
    (aggregateRows rows).total_qty = (aggregateRows rows').total_qty ∧
    (aggregateRows rows).total_amount = (aggregateRows rows').total_amount ∧
    (aggregateRows rows).rate = convert_german_number last.pricePerLicense := by
  refine ⟨aggregateRows_total_qty rows, aggregateRows_total_amount rows, ?_, ?_, ?_⟩
  · rw [aggregateRows_total_qty, aggregateRows_total_qty]
    exact (hperm.map (fun r => convert_german_number r.licensesCount)).sum_eq
  · rw [aggregateRows_total_amount, aggregateRows_total_amount]
    exact (hperm.map (fun r => convert_german_number r.customerTotal)).sum_eq
  · subst hlast
    unfold aggregateRows
    rw [List.foldl_concat]
    rfl

theorem C2_aggregation_order_witness :
    (aggregateRows [rowA, rowB]).total_qty = (aggregateRows [rowB, rowA]).total_qty ∧
    (aggregateRows [rowA, rowB]).total_amount = (aggregateRows [rowB, rowA]).total_amount ∧
    (aggregateRows [rowA, rowB]).rate = convert_german_number rowB.pricePerLicense :=
  have h := C2_aggregation_order [rowA, rowB] [rowB, rowA] [rowA] rowB (by decide) rfl
  ⟨h.2.2.1, h.2.2.2.1, h.2.2.2.2⟩

/-! ## Claim C9 — conversion-rate fallback chain -/

/-- C9 counterexample: the exact (from, to, date, for-selling)-keyed
lookup misses — the claim then demands the 1.0 fallback — yet
`get_conversion_rate` returns 2: the code first falls back to the most
recent for-selling rate for the pair regardless of date. -/
theorem C9_counterexample :
    exactExchangeLookup envC9.exchangeTable "USD" "EUR" envC9.todayStr = none ∧
    get_conversion_rate envC9 "USD" "EUR" = 2 ∧
    ¬ get_conversion_rate envC9 "USD" "EUR" = 1 := by
  have h : get_conversion_rate envC9 "USD" "EUR" = 2 := by
    simp +decide [get_conversion_rate, exactExchangeLookup, latestExchangeLookup, envC9, baseEnv]
  refine ⟨by simp +decide [exactExchangeLookup, envC9, baseEnv], h, by rw [h]; norm_num⟩

/-- C9 amended: same currency pair always yields 1.0; otherwise the rate
of the exact (from, to, today, for-selling) record when present;
otherwise the rate of the latest for-selling record for the pair
regardless of date; 1.0 only when no such record exists.  The function is
total, so a missing rate never prevents invoice creation. -/
theorem C9_conversion_rate_amended (env : Env) (f t : String) :
    (f = t → get_conversion_rate env f t = 1) ∧
    (∀ r, f ≠ t → exactExchangeLookup env.exchangeTable f t env.todayStr = some r →
      get_conversion_rate env f t = r.exchange_rate) ∧
    (∀ r, f ≠ t → exactExchangeLookup env.exchangeTable f t env.todayStr = none →
      latestExchangeLookup env.exchangeTable f t = some r →
      get_conversion_rate env f t = r.exchange_rate) ∧
    (f ≠ t → exactExchangeLookup env.exchangeTable f t env.todayStr = none →
      latestExchangeLookup env.exchangeTable f t = none →
      get_conversion_rate env f t = 1) := by
  refine ⟨?_, ?_, ?_, ?_⟩
  · intro h; simp [get_conversion_rate, h]
  · intro r hne hx; simp [get_conversion_rate, hne, hx]
  · intro r hne hx hl; simp [get_conversion_rate, hne, hx, hl]
  · intro hne hx hl; simp [get_conversion_rate, hne, hx, hl]

theorem C9_conversion_rate_amended_witness :
    get_conversion_rate envC9 "USD" "EUR" = (2 : ℚ) ∧
    get_conversion_rate envC9 "CHF" "CHF" = 1 :=
  have h := C9_conversion_rate_amended envC9 "USD" "EUR"
  have h2 := C9_conversion_rate_amended envC9 "CHF" "CHF"
  ⟨h.2.2.1 ⟨"USD", "EUR", "2025-01-01", true, 2⟩ (by decide)
      (by simp +decide [exactExchangeLookup, envC9, baseEnv])
      (by simp +decide [latestExchangeLookup, envC9, baseEnv]),
    h2.1 rfl⟩

/-! ## Claim C10 — blank Artikelgruppe precondition -/

/-- C10: when the settings' item-group field is blank (and the settings
record itself loads), the call returns the specific error payload
immediately: the file is not stored, no invoice and no item is created —
whatever the rows contain. -/
theorem C10_blank_artikelgruppe (env : Env) (settings : Settings) (rows : List Row)
    (hdoc : env.getDocFails = false) (hblank : settings.artikelgruppe = "") :
    process_csv_import env settings rows =
      ⟨.error "Artikelgruppe field is required for handling OTHER products",
       [], env.items0, false⟩ := by
  simp [process_csv_import, hdoc, hblank]

theorem C10_blank_artikelgruppe_witness :
    process_csv_import baseEnv { baseSettings with artikelgruppe := "" } [rowA] =
      ⟨.error "Artikelgruppe field is required for handling OTHER products",
       [], baseEnv.items0, false⟩ :=
  C10_blank_artikelgruppe baseEnv { baseSettings with artikelgruppe := "" } [rowA]
    rfl rfl

/-! ## Claim C3 — the fatal-error boundary -/

/-- The success payload of source lines 211–217 for a finished run. -/
theorem process_csv_import_success_shape (env : Env) (settings : Settings)
    (rows : List Row) (h1 : env.getDocFails = false) (h2 : settings.artikelgruppe ≠ "")
    (h3 : env.parseFails = false) (h4 : env.saveSettingsFails = false) :
    (process_csv_import env settings rows).result =
      ImportResult.success
        ("Import completed. " ++ toString (runImport env settings rows).invoices_created ++
          " invoices created successfully. " ++
          toString (runImport env settings rows).errors.length ++ " errors logged.")
        (runImport env settings rows).invoices_created
        (runImport env settings rows).errors.length
        (runImport env settings rows).report := by
  simp [process_csv_import, h1, h2, h3, h4]

/-- C3 counterexample: with every external call succeeding (no exception
anywhere) but a blank Artikelgruppe, the import still returns the error
payload — so an unguarded exception is not the only way the whole
operation fails, contradicting the claim's "in every other case the call
returns status success". -/
theorem C3_counterexample :
    isErrorResult (process_csv_import baseEnv { baseSettings with artikelgruppe := "" } [rowA]).result = true ∧
    baseEnv.getDocFails = false ∧ baseEnv.parseFails = false ∧
    baseEnv.saveSettingsFails = false := by
  refine ⟨?_, rfl, rfl, rfl⟩
  rw [C10_blank_artikelgruppe baseEnv { baseSettings with artikelgruppe := "" } [rowA] rfl rfl]
  rfl

/-- C3 amended: the run returns the error payload (a message and no other
fields) exactly when one of the unguarded operations fails — the settings
load, the file decode / CSV parse, the final settings save — or when the
blank-Artikelgruppe precondition rejects the run; in every other case it
returns the success payload with `invoices_created`, `errors_count` and
the report, however many per-row or per-customer errors were collected. -/
theorem C3_fatal_boundary_amended (env : Env) (settings : Settings) (rows : List Row) :
    (isErrorResult (process_csv_import env settings rows).result = true ↔
      (env.getDocFails = true ∨ settings.artikelgruppe = "" ∨
        env.parseFails = true ∨ env.saveSettingsFails = true)) ∧
    (env.getDocFails = false → settings.artikelgruppe ≠ "" → env.parseFails = false →
      env.saveSettingsFails = false →
      (process_csv_import env settings rows).result =
        ImportResult.success
          ("Import completed. " ++ toString (runImport env settings rows).invoices_created ++
            " invoices created successfully. " ++
            toString (runImport env settings rows).errors.length ++ " errors logged.")
          (runImport env settings rows).invoices_created
          (runImport env settings rows).errors.length
          (runImport env settings rows).report) := by
  constructor
  · by_cases h1 : env.getDocFails <;>
      by_cases h2 : settings.artikelgruppe = "" <;>
        by_cases h3 : env.parseFails <;>
          by_cases h4 : env.saveSettingsFails <;>
            simp [process_csv_import, h1, h2, h3, h4, isErrorResult]
  · intro h1 h2 h3 h4
    exact process_csv_import_success_shape env settings rows h1 h2 h3 h4

theorem C3_fatal_boundary_amended_witness :
    isErrorResult (process_csv_import { baseEnv with saveSettingsFails := true }
      baseSettings [rowA]).result = true ∧
    (process_csv_import baseEnv baseSettings []).result =
      ImportResult.success
        ("Import completed. " ++ toString (runImport baseEnv baseSettings []).invoices_created ++
          " invoices created successfully. " ++
          toString (runImport baseEnv baseSettings []).errors.length ++ " errors logged.")
        (runImport baseEnv baseSettings []).invoices_created
        (runImport baseEnv baseSettings []).errors.length
        (runImport baseEnv baseSettings []).report :=
  ⟨((C3_fatal_boundary_amended { baseEnv with saveSettingsFails := true } baseSettings [rowA]).1).mpr
      (Or.inr (Or.inr (Or.inr rfl))),
    (C3_fatal_boundary_amended baseEnv baseSettings []).2 rfl (by decide) rfl rfl⟩

/-! ## Claim C6 — idempotent OTHER item creation -/

theorem lookupItemByCode_eq_none_iff (items : List ItemRec) (p : String) :
    lookupItemByCode items p = none ↔ countItemsWithCode items p = 0 := by
  simp [lookupItemByCode, countItemsWithCode, List.find?_eq_none, List.length_eq_zero,
    List.filter_eq_nil_iff]

theorem countItemsWithCode_append (a b : List ItemRec) (p : String) :
    countItemsWithCode (a ++ b) p = countItemsWithCode a p + countItemsWithCode b p := by
  simp [countItemsWithCode, List.filter_append]

theorem createdStore_of_found (env : Env) (p g : String) (items : List ItemRec)
    (it : ItemRec) (h : lookupItemByCode items p = some it) :
    createdStore env p g items = items := by
  simp [createdStore, create_item_for_other_product, h]

theorem createdStore_of_missing (env : Env) (p g : String) (items : List ItemRec)
    (h : lookupItemByCode items p = none) (hfail : env.insertItemFails p = false) :
    createdStore env p g items = items ++ [newOtherItem p g] := by
  simp [createdStore, create_item_for_other_product, h, hfail]

theorem countItemsWithCode_pos_found (items : List ItemRec) (p : String)
    (h : countItemsWithCode items p ≠ 0) : ∃ it, lookupItemByCode items p = some it := by
  cases hl : lookupItemByCode items p with
  | none => exact absurd ((lookupItemByCode_eq_none_iff items p).mp hl) h
  | some it => exact ⟨it, rfl⟩

theorem iterateCreate_stable (env : Env) (p g : String) :
    ∀ (n : ℕ) (items : List ItemRec), countItemsWithCode items p = 1 →
      countItemsWithCode (iterateCreate env p g n items) p = 1
  | 0, _, h => h
  | n + 1, items, h => by
    obtain ⟨it, hit⟩ := countItemsWithCode_pos_found items p (by omega)
    rw [iterateCreate, createdStore_of_found env p g items it hit]
    exact iterateCreate_stable env p g n items h

/-- C6: resolving an OTHER line first reuses an existing catalog item
whose code equals the product name (logging "already exists"); otherwise
it creates exactly one new item with code = name = product_name, the
configured item group, stock unit "Stk", non-stocked, sellable, and
external reference "OTHER"; consequently, starting from a table without
that code, any number `n ≥ 1` of successive resolutions of the same
product name leaves exactly one catalog item with that code. -/
theorem C6_other_item_idempotent (env : Env) (items : List ItemRec) (p g : String)
    (log : List String) (hfail : env.insertItemFails p = false) :
    (∀ it, lookupItemByCode items p = some it →
      create_item_for_other_product env items p g log =
        (some it.name, items, log ++ ["Item " ++ p ++ " already exists, using existing item"])) ∧
    (lookupItemByCode items p = none →
      create_item_for_other_product env items p g log =
        (some p, items ++ [newOtherItem p g], log ++ ["Created new item: " ++ p])) ∧
    ((newOtherItem p g).item_code = p ∧ (newOtherItem p g).item_name = p ∧
      (newOtherItem p g).item_group = g ∧ (newOtherItem p g).stock_uom = "Stk" ∧
      (newOtherItem p g).is_stock_item = false ∧ (newOtherItem p g).is_sales_item = true ∧
      (newOtherItem p g).custom_externe_artikelnummer = "OTHER") ∧
    (countItemsWithCode items p = 0 → ∀ n : ℕ, 1 ≤ n →
      countItemsWithCode (iterateCreate env p g n items) p = 1) := by
  refine ⟨?_, ?_, ⟨rfl, rfl, rfl, rfl, rfl, rfl, rfl⟩, ?_⟩
  · intro it h; simp [create_item_for_other_product, h]
  · intro h; simp [create_item_for_other_product, h, hfail]
  · intro h0 n hn
    obtain ⟨m, rfl⟩ : ∃ m, n = m + 1 := ⟨n - 1, by omega⟩
    rw [iterateCreate,
      createdStore_of_missing env p g items ((lookupItemByCode_eq_none_iff items p).mpr h0) hfail]
    apply iterateCreate_stable
    rw [countItemsWithCode_append, h0]
    simp [countItemsWithCode, newOtherItem]

theorem C6_other_item_idempotent_witness :
    baseEnv.insertItemFails "AdHoc Service" = false ∧
    countItemsWithCode (iterateCreate baseEnv "AdHoc Service" "Hornetsecurity" 2 []) "AdHoc Service" = 1 :=
  ⟨rfl, (C6_other_item_idempotent baseEnv [] "AdHoc Service" "Hornetsecurity" [] rfl).2.2.2
    rfl 2 (by omega)⟩

/-! ## Claim C7 — zero-amount suppression -/

/-- C7: when zero-amount suppression is enabled and the assembled invoice
of a customer has grand total exactly 0, the per-customer step persists no
invoice, adds nothing to `invoices_created` or `successful_customers`
(the customer stays absent), and records no error for the suppression:
only the threaded item table and creation log may change. -/
theorem C7_zero_suppression (env : Env) (settings : Settings) (st : LoopState)
    (ref : String) (items_data : List LineItem) (cust : CustomerRec)
    (vs : List ResolvedItem) (items1 : List ItemRec) (log1 : List String)
    (hsup : settings.nullrechnungen_unterdruecken = true)
    (htax : settings.tax_account ≠ "")
    (hcust : lookupCustomer env ref = some cust)
    (hv : validate_and_process_items_hornetsecurity env settings ref items_data
      st.items st.errors st.created_items_log = ⟨vs, items1, st.errors, log1⟩)
    (hvne : vs ≠ [])
    (h0 : env.grandTotal (assembleInvoice env settings cust vs) = 0) :
    customerStep env settings st (ref, items_data) =
      { st with items := items1, created_items_log := log1 } ∧
    (customerStep env settings st (ref, items_data)).invoices = st.invoices ∧
    (customerStep env settings st (ref, items_data)).invoices_created = st.invoices_created ∧
    (customerStep env settings st (ref, items_data)).successful_customers = st.successful_customers ∧
    (customerStep env settings st (ref, items_data)).errors = st.errors ∧
    (ref ∉ st.successful_customers →
      ref ∉ (customerStep env settings st (ref, items_data)).successful_customers) := by
  have hstep : customerStep env settings st (ref, items_data) =
      { st with items := items1, created_items_log := log1 } := by
    simp only [customerStep, hcust, hv, hvne,
      create_hornetsecurity_sales_invoice_safe, if_neg hvne, htax,
      if_neg htax, hsup, h0]
    simp
  refine ⟨hstep, ?_, ?_, ?_, ?_, ?_⟩ <;> simp [hstep]

theorem C7_zero_suppression_witness :
    (customerStep envC7 settingsC7 stC7 ("C1", [lineC7])).invoices = stC7.invoices ∧
    (customerStep envC7 settingsC7 stC7 ("C1", [lineC7])).invoices_created = stC7.invoices_created ∧
    (customerStep envC7 settingsC7 stC7 ("C1", [lineC7])).errors = stC7.errors ∧
    "C1" ∉ (customerStep envC7 settingsC7 stC7 ("C1", [lineC7])).successful_customers :=
  have h := C7_zero_suppression envC7 settingsC7 stC7 "C1" [lineC7]
    ⟨"C1", "CUST-00001", "Alpha GmbH"⟩ [resolveWith lineC7 "ITEM-P1" "P1 name" "P1 desc"]
    stC7.items [] rfl (by decide) (by decide)
    (by
      have hup : pupper "P1" = "OTHER" ↔ False := by decide
      norm_num [validate_and_process_items_hornetsecurity, validateLoop, validateStep,
        lookupItemByExt, resolveWith, envC7, baseEnv, stC7, lineC7, hup, settingsC7, baseSettings])
    (List.cons_ne_nil _ _) rfl
  ⟨h.2.1, h.2.2.1, h.2.2.2.2.1, h.2.2.2.2.2 (by decide)⟩

/-! ## The row loop: error emission, grouped-row membership, key consistency -/

theorem addToGroup_errors_mono (st : ParseState) (ref code curr ident : String) (r : Row) :
    ∃ d, (addToGroup st ref code curr ident r).errors = st.errors ++ d := by
  unfold addToGroup
  cases hf : alFind st.groups (ref ++ "|" ++ ident) with
  | none => exact ⟨[], by simp [hf]⟩
  | some g =>
    by_cases h5 : g.currency = curr
    · exact ⟨[], by simp [hf, h5]⟩
    · exact ⟨_, by simp [hf, h5]; rfl⟩

theorem processRow_errors_mono (st : ParseState) (i : ℕ) (r : Row) :
    ∃ d, (processRow st i r).errors = st.errors ++ d := by
  unfold processRow
  by_cases h1 : pstrip r.customerRef = ""
  · exact ⟨_, by simp [h1]; rfl⟩
  by_cases h2 : pstrip r.productCode = ""
  · exact ⟨_, by simp [h1, h2]; rfl⟩
  by_cases h3 : pupper (pstrip r.productCode) = "OTHER"
  · by_cases h4 : pstrip r.product = ""
    · exact ⟨_, by simp [h1, h2, h3, h4]; rfl⟩
    · simp only [if_neg h1, if_neg h2, if_pos h3, if_neg h4]
      exact addToGroup_errors_mono _ _ _ _ _ r
  · simp only [if_neg h1, if_neg h2, if_neg h3]
    exact addToGroup_errors_mono _ _ _ _ _ r

theorem parseLoop_errors_mono (rows : List Row) :
    ∀ (i : ℕ) (st : ParseState), ∃ d, (parseLoop i rows st).errors = st.errors ++ d := by
  induction rows with
  | nil => intro i st; exact ⟨[], by simp [parseLoop]⟩
  | cons r rest ih =>
    intro i st
    obtain ⟨d1, h1⟩ := processRow_errors_mono st i r
    obtain ⟨d2, h2⟩ := ih (i + 1) (processRow st i r)
    exact ⟨d1 ++ d2, by rw [parseLoop, h2, h1, List.append_assoc]⟩

theorem parseLoop_mem_errors (rows : List Row) (i : ℕ) (st : ParseState) (m : String)
    (h : m ∈ st.errors) : m ∈ (parseLoop i rows st).errors := by
  obtain ⟨d, hd⟩ := parseLoop_errors_mono rows i st
  rw [hd]
  exact List.mem_append_left d h

theorem processRow_emits (st : ParseState) (i : ℕ) (r : Row) (m : String)
    (h : rowErrMsg r (i + 2) = some m) : m ∈ (processRow st i r).errors := by
  unfold rowErrMsg at h
  unfold processRow
  by_cases h1 : pstrip r.customerRef = ""
  · rw [if_pos h1] at h
    simp only [Option.some.injEq] at h
    simp [h1, ← h]
  · rw [if_neg h1] at h
    by_cases h2 : pstrip r.productCode = ""
    · rw [if_pos h2] at h
      simp only [Option.some.injEq] at h
      simp [h1, h2, ← h]
    · rw [if_neg h2] at h
      by_cases h3 : pupper (pstrip r.productCode) = "OTHER" ∧ pstrip r.product = ""
      · rw [if_pos h3] at h
        simp only [Option.some.injEq] at h
        simp [h1, h2, h3.1, h3.2, ← h]
      · rw [if_neg h3] at h
        exact absurd h (by simp)

theorem parseLoop_error_at (rows : List Row) :
    ∀ (i0 : ℕ) (st : ParseState) (j : ℕ) (hj : j < rows.length) (m : String),
      rowErrMsg (rows.get ⟨j, hj⟩) (i0 + j + 2) = some m →
      m ∈ (parseLoop i0 rows st).errors := by
  induction rows with
  | nil => intro i0 st j hj m hm; exact absurd hj (by simp)
  | cons r rest ih =>
    intro i0 st j hj m hm
    cases j with
    | zero =>
      rw [parseLoop]
      apply parseLoop_mem_errors
      exact processRow_emits st i0 r m (by simpa using hm)
    | succ j' =>
      rw [parseLoop]
      have hj' : j' < rest.length := by simpa using hj
      have hm' : rowErrMsg (rest.get ⟨j', hj'⟩) ((i0 + 1) + j' + 2) = some m := by
        have : (i0 + 1) + j' + 2 = i0 + (j' + 1) + 2 := by omega
        rw [this]
        simpa using hm
      exact ih (i0 + 1) (processRow st i0 r) j' hj' m hm'

theorem alUpdate_mem {α : Type} (gs : List (String × α)) (k : String) (v : α)
    (e : String × α) (h : e ∈ alUpdate gs k v) : e = (k, v) ∨ e ∈ gs := by
  induction gs with
  | nil => simp [alUpdate] at h
  | cons p rest ih =>
    rw [alUpdate] at h
    by_cases hk : p.1 = k
    · rw [if_pos hk] at h
      rcases List.mem_cons.mp h with h | h
      · exact Or.inl h
      · exact Or.inr (List.mem_cons_of_mem p h)
    · rw [if_neg hk] at h
      rcases List.mem_cons.mp h with h | h
      · exact Or.inr (by simp [h])
      · rcases ih h with h | h
        · exact Or.inl h
        · exact Or.inr (List.mem_cons_of_mem p h)

theorem alFind_mem {α : Type} (gs : List (String × α)) (k : String) (g : α)
    (h : alFind gs k = some g) : (k, g) ∈ gs := by
  unfold alFind at h
  cases hf : gs.find? (fun p => p.1 = k) with
  | none => rw [hf] at h; simp at h
  | some p =>
    rw [hf] at h
    have hp := List.find?_some hf
    have hmem := List.mem_of_find?_eq_some hf
    obtain ⟨p1, p2⟩ := p
    simp only [decide_eq_true_eq] at hp
    simp only [Option.map, Option.some.injEq] at h
    subst hp
    subst h
    exact hmem

theorem mem_groupedRows {gs : List (String × GroupData)} {x : Row} :
    x ∈ groupedRows gs ↔ ∃ kg ∈ gs, x ∈ kg.2.rows := by
  simp only [groupedRows, List.mem_flatten, List.mem_map]
  constructor
  · rintro ⟨l, ⟨kg, hkg, rfl⟩, hx⟩
    exact ⟨kg, hkg, hx⟩
  · rintro ⟨kg, hkg, hx⟩
    exact ⟨kg.2.rows, ⟨kg, hkg, rfl⟩, hx⟩

theorem groupedRows_append (a b : List (String × GroupData)) :
    groupedRows (a ++ b) = groupedRows a ++ groupedRows b := by
  simp [groupedRows]

theorem addToGroup_grouped_mem (st : ParseState) (ref code curr ident : String) (r x : Row)
    (h : x ∈ groupedRows (addToGroup st ref code curr ident r).groups) :
    x = r ∨ x ∈ groupedRows st.groups := by
  unfold addToGroup at h
  cases hf : alFind st.groups (ref ++ "|" ++ ident) with
  | none =>
    simp only [hf] at h
    rw [groupedRows_append] at h
    rcases List.mem_append.mp h with h | h
    · exact Or.inr h
    · simp [groupedRows] at h
      exact Or.inl h
  | some g =>
    simp only [hf] at h
    rcases mem_groupedRows.mp h with ⟨kg, hkg, hx⟩
    rcases alUpdate_mem _ _ _ _ hkg with heq | hmem
    · subst heq
      simp only at hx
      rcases List.mem_append.mp hx with hx | hx
      · exact Or.inr (mem_groupedRows.mpr ⟨(ref ++ "|" ++ ident, g), alFind_mem _ _ _ hf, hx⟩)
      · simp at hx
        exact Or.inl hx
    · exact Or.inr (mem_groupedRows.mpr ⟨kg, hmem, hx⟩)

theorem processRow_grouped_mem (st : ParseState) (i : ℕ) (r x : Row)
    (h : x ∈ groupedRows (processRow st i r).groups) :
    (x = r ∧ rowChecksOk r) ∨ x ∈ groupedRows st.groups := by
  unfold processRow at h
  by_cases h1 : pstrip r.customerRef = ""
  · rw [if_pos h1] at h; exact Or.inr h
  rw [if_neg h1] at h
  by_cases h2 : pstrip r.productCode = ""
  · rw [if_pos h2] at h; exact Or.inr h
  rw [if_neg h2] at h
  by_cases h3 : pupper (pstrip r.productCode) = "OTHER"
  · rw [if_pos h3] at h
    by_cases h4 : pstrip r.product = ""
    · rw [if_pos h4] at h; exact Or.inr h
    · rw [if_neg h4] at h
      rcases addToGroup_grouped_mem _ _ _ _ _ _ _ h with h | h
      · exact Or.inl ⟨h, h1, h2, fun _ => h4⟩
      · exact Or.inr h
  · rw [if_neg h3] at h
    rcases addToGroup_grouped_mem _ _ _ _ _ _ _ h with h | h
    · exact Or.inl ⟨h, h1, h2, fun hh => absurd hh h3⟩
    · exact Or.inr h

theorem parseLoop_grouped_mem (rows : List Row) :
    ∀ (i : ℕ) (st : ParseState) (x : Row),
      x ∈ groupedRows (parseLoop i rows st).groups →
      (x ∈ rows ∧ rowChecksOk x) ∨ x ∈ groupedRows st.groups := by
  induction rows with
  | nil => intro i st x h; exact Or.inr (by simpa [parseLoop] using h)
  | cons r rest ih =>
    intro i st x h
    rw [parseLoop] at h
    rcases ih (i + 1) (processRow st i r) x h with ⟨hmem, hok⟩ | h2
    · exact Or.inl ⟨List.mem_cons_of_mem r hmem, hok⟩
    · rcases processRow_grouped_mem st i r x h2 with ⟨heq, hok⟩ | h3
      · subst heq
        exact Or.inl ⟨List.mem_cons_self x rest, hok⟩
      · exact Or.inr h3

theorem parsePhase_grouped_mem (rows : List Row) (x : Row)
    (h : x ∈ groupedRows (parsePhase rows).groups) : x ∈ rows ∧ rowChecksOk x := by
  rcases parseLoop_grouped_mem rows 0 ⟨[], 0, []⟩ x h with h | h
  · exact h
  · simp [groupedRows] at h

theorem addToGroup_consistent (st : ParseState) (ref code curr ident : String) (r : Row)
    (hkey : ref ++ "|" ++ ident = rowKey r)
    (hc : groupsConsistent st.groups) :
    groupsConsistent (addToGroup st ref code curr ident r).groups := by
  unfold addToGroup
  cases hf : alFind st.groups (ref ++ "|" ++ ident) with
  | none =>
    simp only [hf]
    intro kg hkg r' hr'
    rcases List.mem_append.mp hkg with hkg | hkg
    · exact hc kg hkg r' hr'
    · simp only [List.mem_singleton] at hkg
      subst hkg
      simp only [List.mem_singleton] at hr'
      subst hr'
      exact hkey.symm
  | some g =>
    simp only [hf]
    intro kg hkg r' hr'
    rcases alUpdate_mem _ _ _ _ hkg with heq | hmem
    · subst heq
      simp only at hr' ⊢
      rcases List.mem_append.mp hr' with hr' | hr'
      · exact hc (ref ++ "|" ++ ident, g) (alFind_mem _ _ _ hf) r' hr'
      · simp only [List.mem_singleton] at hr'
        subst hr'
        exact hkey.symm
    · exact hc kg hmem r' hr'

theorem processRow_consistent (st : ParseState) (i : ℕ) (r : Row)
    (hc : groupsConsistent st.groups) :
    groupsConsistent (processRow st i r).groups := by
  unfold processRow
  by_cases h1 : pstrip r.customerRef = ""
  · rw [if_pos h1]; exact hc
  rw [if_neg h1]
  by_cases h2 : pstrip r.productCode = ""
  · rw [if_pos h2]; exact hc
  rw [if_neg h2]
  by_cases h3 : pupper (pstrip r.productCode) = "OTHER"
  · rw [if_pos h3]
    by_cases h4 : pstrip r.product = ""
    · rw [if_pos h4]; exact hc
    · rw [if_neg h4]
      apply addToGroup_consistent
      · unfold rowKey keyIdentifier
        rw [if_pos h3]
      · exact hc
  · rw [if_neg h3]
    apply addToGroup_consistent
    · unfold rowKey keyIdentifier
      rw [if_neg h3]
    · exact hc

theorem parseLoop_consistent (rows : List Row) :
    ∀ (i : ℕ) (st : ParseState), groupsConsistent st.groups →
      groupsConsistent (parseLoop i rows st).groups := by
  induction rows with
  | nil => intro i st hc; exact hc
  | cons r rest ih =>
    intro i st hc
    exact ih (i + 1) (processRow st i r) (processRow_consistent st i r hc)

theorem parsePhase_consistent (rows : List Row) :
    groupsConsistent (parsePhase rows).groups :=
  parseLoop_consistent rows 0 ⟨[], 0, []⟩ (by intro kg hkg; simp at hkg)


theorem string_append_left_cancel {a b c : String} (h : a ++ b = a ++ c) : b = c := by
  apply String.ext
  exact List.append_cancel_left (congrArg String.data h)

/-- C4: a row whose Customer Reference Number (or Product Code) is blank
after trimming yields an error naming line `i + 2` (0-based index plus 2
for the header), is excluded from the grouping dict (every grouped row has
both fields non-blank), and never aborts the import: with no unguarded
external failure the run still returns the success payload. -/
theorem C4_per_row_validation (rows : List Row) (i : ℕ) (hi : i < rows.length) :
    (pstrip (rows.get ⟨i, hi⟩).customerRef = "" →
      ("Missing Customer Reference Number in line " ++ toString (i + 2)) ∈ (parsePhase rows).errors) ∧
    (pstrip (rows.get ⟨i, hi⟩).customerRef ≠ "" → pstrip (rows.get ⟨i, hi⟩).productCode = "" →
      ("Missing Product Code in line " ++ toString (i + 2)) ∈ (parsePhase rows).errors) ∧
    (∀ x ∈ groupedRows (parsePhase rows).groups,
      pstrip x.customerRef ≠ "" ∧ pstrip x.productCode ≠ "") ∧
    (∀ env settings, env.getDocFails = false → settings.artikelgruppe ≠ "" →
      env.parseFails = false → env.saveSettingsFails = false →
      isErrorResult (process_csv_import env settings rows).result = false) := by
  refine ⟨?_, ?_, ?_, ?_⟩
  · intro hblank
    apply parseLoop_error_at rows 0 ⟨[], 0, []⟩ i hi
    unfold rowErrMsg
    rw [if_pos hblank, Nat.zero_add]
  · intro hne hblank
    apply parseLoop_error_at rows 0 ⟨[], 0, []⟩ i hi
    unfold rowErrMsg
    rw [if_neg hne, if_pos hblank, Nat.zero_add]
  · intro x hx
    rcases parsePhase_grouped_mem rows x hx with ⟨_, hok⟩
    exact ⟨hok.1, hok.2.1⟩
  · intro env settings h1 h2 h3 h4
    rw [process_csv_import_success_shape env settings rows h1 h2 h3 h4]
    rfl

/-- C5: the grouping key is customer_ref and product_code, except that an
OTHER-coded row keys on `OTHER_` plus its product name — so two OTHER rows
of one customer with different product names have different keys and are
never stored in the same group; an OTHER row whose product name is blank
gets a per-row error naming its line number and is stored in no group. -/
theorem C5_other_key_derivation (rows : List Row) (r r1 r2 : Row)
    (h1 : pupper (pstrip r1.productCode) = "OTHER")
    (h2 : pupper (pstrip r2.productCode) = "OTHER")
    (href : pstrip r1.customerRef = pstrip r2.customerRef)
    (hname : pstrip r1.product ≠ pstrip r2.product) :
    (pupper (pstrip r.productCode) ≠ "OTHER" →
      rowKey r = pstrip r.customerRef ++ "|" ++ pstrip r.productCode) ∧
    rowKey r1 = pstrip r1.customerRef ++ "|" ++ ("OTHER_" ++ pstrip r1.product) ∧
    rowKey r1 ≠ rowKey r2 ∧
    (∀ kg ∈ (parsePhase rows).groups, ¬(r1 ∈ kg.2.rows ∧ r2 ∈ kg.2.rows)) ∧
    (∀ j, ∀ hj : j < rows.length,
      pstrip (rows.get ⟨j, hj⟩).customerRef ≠ "" →
      pstrip (rows.get ⟨j, hj⟩).productCode ≠ "" →
      pupper (pstrip (rows.get ⟨j, hj⟩).productCode) = "OTHER" →
      pstrip (rows.get ⟨j, hj⟩).product = "" →
      ("Missing Product name for OTHER product in line " ++ toString (j + 2)) ∈ (parsePhase rows).errors ∧
      ∀ kg ∈ (parsePhase rows).groups, rows.get ⟨j, hj⟩ ∉ kg.2.rows) := by
  have hkey : rowKey r1 ≠ rowKey r2 := by
    unfold rowKey keyIdentifier
    rw [if_pos h1, if_pos h2, href]
    intro he
    apply hname
    have h3 := string_append_left_cancel he
    have h4 := string_append_left_cancel (a := "OTHER_") h3
    exact h4
  refine ⟨?_, ?_, hkey, ?_, ?_⟩
  · intro hno
    unfold rowKey keyIdentifier
    rw [if_neg hno]
  · unfold rowKey keyIdentifier
    rw [if_pos h1]
  · intro kg hkg hboth
    have hc := parsePhase_consistent rows
    have k1 := hc kg hkg r1 hboth.1
    have k2 := hc kg hkg r2 hboth.2
    exact hkey (k1.trans k2.symm)
  · intro j hj hr hp hup hnm
    constructor
    · apply parseLoop_error_at rows 0 ⟨[], 0, []⟩ j hj
      unfold rowErrMsg
      rw [if_neg hr, if_neg hp, if_pos ⟨hup, hnm⟩, Nat.zero_add]
    · intro kg hkg hmem
      have hx := mem_groupedRows.mpr ⟨kg, hkg, hmem⟩
      rcases parsePhase_grouped_mem rows _ hx with ⟨_, hok⟩
      exact hok.2.2 hup hnm


theorem C4_per_row_validation_witness :
    ("Missing Customer Reference Number in line " ++ toString (0 + 2)) ∈
      (parsePhase [rowBlankRef, rowA]).errors ∧
    isErrorResult (process_csv_import baseEnv baseSettings [rowBlankRef, rowA]).result = false :=
  have h := C4_per_row_validation [rowBlankRef, rowA] 0 (by decide)
  ⟨h.1 (by decide), h.2.2.2 baseEnv baseSettings rfl (by decide) rfl rfl⟩

theorem C5_other_key_derivation_witness :
    rowKey rowOther1 ≠ rowKey rowOther2 ∧
    ("Missing Product name for OTHER product in line " ++ toString (2 + 2)) ∈
      (parsePhase rowsC5).errors :=
  have h := C5_other_key_derivation rowsC5 rowA rowOther1 rowOther2
    (by decide) (by decide) (by decide) (by decide)
  ⟨h.2.2.1,
    (h.2.2.2.2 2 (by decide) (by decide) (by decide) (by decide) (by decide)).1⟩

/-! ## Claim C1 — the reconciliation invariant -/

theorem addToGroup_before (st : ParseState) (ref code curr ident : String) (r : Row) :
    (addToGroup st ref code curr ident r).total_licenses_before =
      st.total_licenses_before := by
  unfold addToGroup
  cases hf : alFind st.groups (ref ++ "|" ++ ident) with
  | none => simp [hf]
  | some g => simp [hf]

theorem processRow_before (st : ParseState) (i : ℕ) (r : Row) :
    (processRow st i r).total_licenses_before =
      st.total_licenses_before + (if validRowB r then rowQtyAbs r else 0) := by
  unfold processRow
  by_cases h1 : pstrip r.customerRef = ""
  · simp [h1, validRowB]
  by_cases h2 : pstrip r.productCode = ""
  · simp [h1, h2, validRowB]
  have hv : validRowB r = true := by simp [validRowB, h1, h2]
  by_cases h3 : pupper (pstrip r.productCode) = "OTHER"
  · by_cases h4 : pstrip r.product = ""
    · simp [h1, h2, h3, h4, hv, rowQtyAbs]
    · simp only [if_neg h1, if_neg h2, if_pos h3, if_neg h4]
      rw [addToGroup_before]
      simp [hv, rowQtyAbs]
  · simp only [if_neg h1, if_neg h2, if_neg h3]
    rw [addToGroup_before]
    simp [hv, rowQtyAbs]

theorem parseLoop_before (rows : List Row) :
    ∀ (i : ℕ) (st : ParseState),
      (parseLoop i rows st).total_licenses_before =
        st.total_licenses_before + beforeSpecSum rows := by
  induction rows with
  | nil => intro i st; simp [parseLoop, beforeSpecSum]
  | cons r rest ih =>
    intro i st
    rw [parseLoop, ih, processRow_before]
    unfold beforeSpecSum
    by_cases hv : validRowB r
    · rw [List.filter_cons_of_pos hv]
      simp [hv]
      ring
    · rw [List.filter_cons_of_neg hv]
      simp [hv]

theorem parsePhase_before (rows : List Row) :
    (parsePhase rows).total_licenses_before = beforeSpecSum rows := by
  unfold parsePhase
  rw [parseLoop_before]
  simp

theorem alUpdate_map_sum {α : Type} (f : α → ℚ) :
    ∀ (gs : List (String × α)) (k : String) (g v : α),
      alFind gs k = some g →
      ((alUpdate gs k v).map (fun p => f p.2)).sum =
        (gs.map (fun p => f p.2)).sum - f g + f v := by
  intro gs
  induction gs with
  | nil => intro k g v h; simp [alFind] at h
  | cons p rest ih =>
    intro k g v h
    unfold alFind at h
    by_cases hk : p.1 = k
    · rw [List.find?_cons_of_pos _ (by simpa using hk)] at h
      simp only [Option.map, Option.some.injEq] at h
      subst h
      rw [alUpdate, if_pos hk]
      simp only [List.map_cons, List.sum_cons]
      ring
    · rw [List.find?_cons_of_neg _ (by simpa using hk)] at h
      rw [alUpdate, if_neg hk]
      simp only [List.map_cons, List.sum_cons]
      rw [ih k g v h]
      ring

theorem addToGroup_absSum (st : ParseState) (ref code curr ident : String) (r : Row) :
    groupsAbsSum (addToGroup st ref code curr ident r).groups =
      groupsAbsSum st.groups + |convert_german_number r.licensesCount| := by
  unfold addToGroup
  cases hf : alFind st.groups (ref ++ "|" ++ ident) with
  | none =>
    simp only [hf]
    unfold groupsAbsSum
    simp [groupAbsSum]
  | some g =>
    simp only [hf]
    unfold groupsAbsSum
    rw [alUpdate_map_sum groupAbsSum st.groups _ g _ hf]
    unfold groupAbsSum
    simp
    ring

theorem processRow_absSum_le (st : ParseState) (i : ℕ) (r : Row) :
    groupsAbsSum (processRow st i r).groups - (processRow st i r).total_licenses_before ≤
      groupsAbsSum st.groups - st.total_licenses_before := by
  unfold processRow
  by_cases h1 : pstrip r.customerRef = ""
  · simp [h1]
  by_cases h2 : pstrip r.productCode = ""
  · simp [h1, h2]
  by_cases h3 : pupper (pstrip r.productCode) = "OTHER"
  · by_cases h4 : pstrip r.product = ""
    · simp only [if_neg h1, if_neg h2, if_pos h3, if_pos h4]
      show groupsAbsSum st.groups -
          (st.total_licenses_before + |convert_german_number (pstrip r.licensesCount)|) ≤
          groupsAbsSum st.groups - st.total_licenses_before
      linarith [abs_nonneg (convert_german_number (pstrip r.licensesCount))]
    · simp only [if_neg h1, if_neg h2, if_pos h3, if_neg h4]
      rw [addToGroup_absSum, addToGroup_before]
      show groupsAbsSum st.groups + |convert_german_number r.licensesCount| -
          (st.total_licenses_before + |convert_german_number (pstrip r.licensesCount)|) ≤
          groupsAbsSum st.groups - st.total_licenses_before
      rw [convert_german_number_pstrip r.licensesCount]
      linarith
  · simp only [if_neg h1, if_neg h2, if_neg h3]
    rw [addToGroup_absSum, addToGroup_before]
    show groupsAbsSum st.groups + |convert_german_number r.licensesCount| -
        (st.total_licenses_before + |convert_german_number (pstrip r.licensesCount)|) ≤
        groupsAbsSum st.groups - st.total_licenses_before
    rw [convert_german_number_pstrip r.licensesCount]
    linarith

theorem processRow_absSum_eq (st : ParseState) (i : ℕ) (r : Row) (hok : rowChecksOk r) :
    groupsAbsSum (processRow st i r).groups - (processRow st i r).total_licenses_before =
      groupsAbsSum st.groups - st.total_licenses_before := by
  obtain ⟨h1, h2, h34⟩ := hok
  unfold processRow
  rw [if_neg h1, if_neg h2]
  by_cases h3 : pupper (pstrip r.productCode) = "OTHER"
  · rw [if_pos h3, if_neg (h34 h3)]
    rw [addToGroup_absSum, addToGroup_before]
    show groupsAbsSum st.groups + |convert_german_number r.licensesCount| -
        (st.total_licenses_before + |convert_german_number (pstrip r.licensesCount)|) =
        groupsAbsSum st.groups - st.total_licenses_before
    rw [convert_german_number_pstrip r.licensesCount]
    ring
  · rw [if_neg h3]
    rw [addToGroup_absSum, addToGroup_before]
    show groupsAbsSum st.groups + |convert_german_number r.licensesCount| -
        (st.total_licenses_before + |convert_german_number (pstrip r.licensesCount)|) =
        groupsAbsSum st.groups - st.total_licenses_before
    rw [convert_german_number_pstrip r.licensesCount]
    ring

theorem parseLoop_absSum_le (rows : List Row) :
    ∀ (i : ℕ) (st : ParseState),
      groupsAbsSum (parseLoop i rows st).groups - (parseLoop i rows st).total_licenses_before ≤
        groupsAbsSum st.groups - st.total_licenses_before := by
  induction rows with
  | nil => intro i st; exact le_refl _
  | cons r rest ih =>
    intro i st
    rw [parseLoop]
    exact le_trans (ih (i + 1) (processRow st i r)) (processRow_absSum_le st i r)

theorem parseLoop_absSum_eq (rows : List Row) :
    ∀ (i : ℕ) (st : ParseState), (∀ r ∈ rows, rowChecksOk r) →
      groupsAbsSum (parseLoop i rows st).groups - (parseLoop i rows st).total_licenses_before =
        groupsAbsSum st.groups - st.total_licenses_before := by
  induction rows with
  | nil => intro i st _; rfl
  | cons r rest ih =>
    intro i st hall
    rw [parseLoop]
    rw [ih (i + 1) (processRow st i r) (fun x hx => hall x (List.mem_cons_of_mem r hx))]
    exact processRow_absSum_eq st i r (hall r (List.mem_cons_self r rest))

theorem parsePhase_absSum_le (rows : List Row) :
    groupsAbsSum (parsePhase rows).groups ≤ (parsePhase rows).total_licenses_before := by
  have h := parseLoop_absSum_le rows 0 ⟨[], 0, []⟩
  dsimp only at h
  have h0 : groupsAbsSum ([] : List (String × GroupData)) = 0 := by
    simp [groupsAbsSum]
  rw [h0] at h
  unfold parsePhase
  linarith [h]

theorem parsePhase_absSum_eq (rows : List Row) (hall : ∀ r ∈ rows, rowChecksOk r) :
    groupsAbsSum (parsePhase rows).groups = (parsePhase rows).total_licenses_before := by
  have h := parseLoop_absSum_eq rows 0 ⟨[], 0, []⟩ hall
  dsimp only at h
  have h0 : groupsAbsSum ([] : List (String × GroupData)) = 0 := by
    simp [groupsAbsSum]
  rw [h0] at h
  unfold parsePhase
  linarith [h]

theorem aggQty_le_absSum (rs : List Row) :
    (aggregateRows rs).total_qty ≤
      (rs.map (fun r => |convert_german_number r.licensesCount|)).sum := by
  rw [aggregateRows_total_qty]
  exact List.sum_le_sum (fun r _ => le_abs_self _)

theorem aggQty_eq_absSum (rs : List Row)
    (h : ∀ r ∈ rs, 0 ≤ convert_german_number r.licensesCount) :
    (aggregateRows rs).total_qty =
      (rs.map (fun r => |convert_german_number r.licensesCount|)).sum := by
  rw [aggregateRows_total_qty]
  congr 1
  exact List.map_congr_left (fun r hr => (abs_of_nonneg (h r hr)).symm)

theorem groupAbsSum_nonneg (g : GroupData) : 0 ≤ groupAbsSum g := by
  apply List.sum_nonneg
  intro x hx
  rcases List.mem_map.mp hx with ⟨r, _, rfl⟩
  exact abs_nonneg _

theorem ciQtySum_append_empty (ci : List (String × List LineItem)) (ref : String) :
    ciQtySum (ci ++ [(ref, [])]) = ciQtySum ci := by
  simp [ciQtySum]

theorem alFind_append_of_none {α : Type} (al : List (String × α)) (k : String) (v : α)
    (h : alFind al k = none) : alFind (al ++ [(k, v)]) k = some v := by
  unfold alFind at h ⊢
  rw [List.find?_append]
  cases hf : al.find? (fun p => p.1 = k) with
  | none =>
    simp only [hf, Option.none_or]
    rw [List.find?_cons_of_pos _ (by simp)]
    rfl
  | some p => rw [hf] at h; simp at h

theorem ciQtySum_update_append (ci : List (String × List LineItem)) (ref : String)
    (l0 : List LineItem) (line : LineItem) (h : alFind ci ref = some l0) :
    ciQtySum (alUpdate ci ref (l0 ++ [line])) = ciQtySum ci + line.total_qty := by
  unfold ciQtySum
  rw [alUpdate_map_sum (fun ls => (ls.map (fun l => l.total_qty)).sum) ci ref l0 _ h]
  simp
  ring

theorem buildStep_sum (ci : List (String × List LineItem)) (p : String × GroupData) :
    ciQtySum (buildStep ci p) =
      ciQtySum ci + (if 0 < (aggregateRows p.2.rows).total_qty
        then (aggregateRows p.2.rows).total_qty else 0) := by
  cases hf : alFind ci p.2.customer_ref_nr with
  | some l0 =>
    by_cases hq : 0 < (aggregateRows p.2.rows).total_qty
    · simp only [buildStep, hf, Option.isSome_some, if_true, if_pos hq, Option.getD_some]
      rw [ciQtySum_update_append ci _ l0 _ hf]
    · simp only [buildStep, hf, Option.isSome_some, if_true, if_neg hq]
      simp [hq]
  | none =>
    by_cases hq : 0 < (aggregateRows p.2.rows).total_qty
    · simp only [buildStep, hf, Option.isSome_none, Bool.false_eq_true, if_false, if_pos hq]
      rw [alFind_append_of_none ci _ [] hf]
      rw [show (some ([] : List LineItem)).getD [] = [] from rfl]
      rw [ciQtySum_update_append (ci ++ [(p.2.customer_ref_nr, [])]) _ [] _
        (alFind_append_of_none ci _ [] hf)]
      rw [ciQtySum_append_empty]
    · simp only [buildStep, hf, Option.isSome_none, Bool.false_eq_true, if_false, if_neg hq]
      rw [ciQtySum_append_empty]
      simp [hq]

theorem buildLoop_sum_le (gs : List (String × GroupData)) :
    ∀ ci, ciQtySum (gs.foldl buildStep ci) ≤ ciQtySum ci + groupsAbsSum gs := by
  induction gs with
  | nil => intro ci; simp [groupsAbsSum]
  | cons p rest ih =>
    intro ci
    rw [List.foldl_cons]
    refine le_trans (ih (buildStep ci p)) ?_
    rw [buildStep_sum]
    have hle : (if 0 < (aggregateRows p.2.rows).total_qty
        then (aggregateRows p.2.rows).total_qty else 0) ≤ groupAbsSum p.2 := by
      by_cases hq : 0 < (aggregateRows p.2.rows).total_qty
      · rw [if_pos hq]; exact aggQty_le_absSum p.2.rows
      · rw [if_neg hq]; exact groupAbsSum_nonneg p.2
    unfold groupsAbsSum
    simp only [List.map_cons, List.sum_cons]
    linarith [hle]

theorem buildLoop_sum_eq (gs : List (String × GroupData)) :
    ∀ ci, (∀ p ∈ gs, ∀ r ∈ p.2.rows, 0 ≤ convert_german_number r.licensesCount) →
      ciQtySum (gs.foldl buildStep ci) = ciQtySum ci + groupsAbsSum gs := by
  induction gs with
  | nil => intro ci _; simp [groupsAbsSum]
  | cons p rest ih =>
    intro ci hpos
    rw [List.foldl_cons,
      ih (buildStep ci p) (fun q hq r hr => hpos q (List.mem_cons_of_mem p hq) r hr),
      buildStep_sum]
    have hagg := aggQty_eq_absSum p.2.rows
      (fun r hr => hpos p (List.mem_cons_self p rest) r hr)
    have heq : (if 0 < (aggregateRows p.2.rows).total_qty
        then (aggregateRows p.2.rows).total_qty else 0) = groupAbsSum p.2 := by
      by_cases hq : 0 < (aggregateRows p.2.rows).total_qty
      · rw [if_pos hq]; exact hagg
      · rw [if_neg hq]
        have hle : (aggregateRows p.2.rows).total_qty ≤ 0 := not_lt.mp hq
        have hnn := groupAbsSum_nonneg p.2
        unfold groupAbsSum at hnn ⊢
        linarith [hagg, hle, hnn]
    unfold groupsAbsSum
    simp only [List.map_cons, List.sum_cons]
    linarith [heq]

theorem buildStep_allPos (ci : List (String × List LineItem)) (p : String × GroupData)
    (h : ciAllPos ci) : ciAllPos (buildStep ci p) := by
  have h1 : ciAllPos (if (alFind ci p.2.customer_ref_nr).isSome then ci
      else ci ++ [(p.2.customer_ref_nr, [])]) := by
    by_cases hs : (alFind ci p.2.customer_ref_nr).isSome
    · rw [if_pos hs]; exact h
    · rw [if_neg hs]
      intro e he l hl
      rcases List.mem_append.mp he with he | he
      · exact h e he l hl
      · simp only [List.mem_singleton] at he
        subst he
        simp at hl
  by_cases hq : 0 < (aggregateRows p.2.rows).total_qty
  · simp only [buildStep, if_pos hq]
    intro e he l hl
    rcases alUpdate_mem _ _ _ _ he with heq | hmem
    · subst heq
      rcases List.mem_append.mp hl with hl | hl
      · cases hf : alFind (if (alFind ci p.2.customer_ref_nr).isSome then ci
            else ci ++ [(p.2.customer_ref_nr, [])]) p.2.customer_ref_nr with
        | none => rw [hf] at hl; simp at hl
        | some l0 =>
          rw [hf] at hl
          simp only [Option.getD_some] at hl
          exact h1 _ (alFind_mem _ _ _ hf) l hl
      · simp only [List.mem_singleton] at hl
        subst hl
        exact hq
    · exact h1 e hmem l hl
  · simp only [buildStep, if_neg hq]
    exact h1

theorem buildCustomerInvoices_allPos (gs : List (String × GroupData)) :
    ∀ ci, ciAllPos ci → ciAllPos (gs.foldl buildStep ci) := by
  induction gs with
  | nil => intro ci h; exact h
  | cons p rest ih =>
    intro ci h
    exact ih (buildStep ci p) (buildStep_allPos ci p h)

theorem validateStep_cases (env : Env) (settings : Settings) (ref : String)
    (l : LineItem) (items : List ItemRec) (errors log : List String) :
    (∃ v items1 log1, validateStep env settings ref l items errors log =
        (some v, items1, errors, log1) ∧ v.total_qty = l.total_qty) ∨
    (∃ items1 log1 m, validateStep env settings ref l items errors log =
        (none, items1, errors ++ [m], log1)) := by
  unfold validateStep
  by_cases ho : pupper l.product_code = "OTHER"
  · rw [if_pos ho]
    by_cases hg : settings.artikelgruppe = ""
    · rw [if_pos hg]
      exact Or.inr ⟨_, _, _, rfl⟩
    rw [if_neg hg]
    by_cases hp : l.product_name = ""
    · rw [if_pos hp]
      exact Or.inr ⟨_, _, _, rfl⟩
    rw [if_neg hp]
    cases hcr : create_item_for_other_product env items l.product_name settings.artikelgruppe log with
    | mk ic rest =>
      obtain ⟨items1, log1⟩ := rest
      cases ic with
      | none =>
        simp only [hcr]
        exact Or.inr ⟨_, _, _, rfl⟩
      | some code =>
        simp only [hcr]
        by_cases hq : (resolveWith l code l.product_name l.product_name).total_qty ≤ 0
        · rw [if_pos hq]
          exact Or.inr ⟨_, _, _, rfl⟩
        · rw [if_neg hq]
          exact Or.inl ⟨_, _, _, rfl, rfl⟩
  · rw [if_neg ho]
    cases hlk : lookupItemByExt items l.product_code with
    | none =>
      simp only [hlk]
      exact Or.inr ⟨_, _, _, rfl⟩
    | some it =>
      simp only [hlk]
      by_cases hq : (resolveWith l it.name it.item_name it.description).total_qty ≤ 0
      · rw [if_pos hq]
        exact Or.inr ⟨_, _, _, rfl⟩
      · rw [if_neg hq]
        exact Or.inl ⟨_, _, _, rfl, rfl⟩

theorem validateLoop_errors_mono (env : Env) (settings : Settings) (ref : String) :
    ∀ (ls : List LineItem) (items : List ItemRec) (errors log : List String),
      ∃ d, (validateLoop env settings ref ls items errors log).errors = errors ++ d := by
  intro ls
  induction ls with
  | nil => intro items errors log; exact ⟨[], by simp [validateLoop]⟩
  | cons l rest ih =>
    intro items errors log
    rcases validateStep_cases env settings ref l items errors log with
      ⟨v, items1, log1, hstep, _⟩ | ⟨items1, log1, m, hstep⟩
    · rw [validateLoop, hstep]
      obtain ⟨d, hd⟩ := ih items1 errors log1
      exact ⟨d, by simpa using hd⟩
    · rw [validateLoop, hstep]
      obtain ⟨d, hd⟩ := ih items1 (errors ++ [m]) log1
      exact ⟨[m] ++ d, by rw [hd, List.append_assoc]⟩

theorem validateLoop_sum_le (env : Env) (settings : Settings) (ref : String) :
    ∀ (ls : List LineItem) (items : List ItemRec) (errors log : List String),
      (∀ l ∈ ls, 0 ≤ l.total_qty) →
      (((validateLoop env settings ref ls items errors log).valid_items.map
        (fun v => v.total_qty)).sum ≤ (ls.map (fun l => l.total_qty)).sum) := by
  intro ls
  induction ls with
  | nil => intro items errors log _; simp [validateLoop]
  | cons l rest ih =>
    intro items errors log hnn
    rcases validateStep_cases env settings ref l items errors log with
      ⟨v, items1, log1, hstep, hq⟩ | ⟨items1, log1, m, hstep⟩
    · rw [validateLoop, hstep]
      simp only [List.map_cons, List.sum_cons]
      have := ih items1 errors log1 (fun x hx => hnn x (List.mem_cons_of_mem l hx))
      rw [hq]
      linarith [this]
    · rw [validateLoop, hstep]
      simp only [List.map_cons, List.sum_cons]
      have := ih items1 (errors ++ [m]) log1 (fun x hx => hnn x (List.mem_cons_of_mem l hx))
      have h0 := hnn l (List.mem_cons_self l rest)
      linarith [this]

theorem validateLoop_noerr (env : Env) (settings : Settings) (ref : String) :
    ∀ (ls : List LineItem) (items : List ItemRec) (errors log : List String),
      (validateLoop env settings ref ls items errors log).errors = errors →
      ((validateLoop env settings ref ls items errors log).valid_items.map
        (fun v => v.total_qty)) = ls.map (fun l => l.total_qty) := by
  intro ls
  induction ls with
  | nil => intro items errors log _; simp [validateLoop]
  | cons l rest ih =>
    intro items errors log herr
    rcases validateStep_cases env settings ref l items errors log with
      ⟨v, items1, log1, hstep, hq⟩ | ⟨items1, log1, m, hstep⟩
    · rw [validateLoop, hstep] at herr ⊢
      simp only [List.map_cons]
      have hout := ih items1 errors log1 (by simpa using herr)
      rw [hq] at *
      simp only [hout]
    · exfalso
      rw [validateLoop, hstep] at herr
      obtain ⟨d, hd⟩ := validateLoop_errors_mono env settings ref rest items1 (errors ++ [m]) log1
      have : errors = (errors ++ [m]) ++ d := by rw [← hd]; exact herr.symm
      have hlen := congrArg List.length this
      simp at hlen

theorem invoice_items_sum (env : Env) (settings : Settings) (cust : CustomerRec)
    (vs : List ResolvedItem) :
    ((assembleInvoice env settings cust vs).items.map (fun it => it.qty)).sum =
      (vs.map (fun v => v.total_qty)).sum := by
  show ((vs.map mkInvItem).map (fun it => it.qty)).sum = _
  rw [List.map_map]
  rfl

theorem create_safe_errors_mono (env : Env) (settings : Settings) (ref : String)
    (vs : List ResolvedItem) (errors : List String) :
    ∃ d, (create_hornetsecurity_sales_invoice_safe env settings ref vs errors).2 =
      errors ++ d := by
  unfold create_hornetsecurity_sales_invoice_safe
  cases hc : lookupCustomer env ref with
  | none =>
    dsimp only
    exact ⟨_, rfl⟩
  | some cust =>
    dsimp only
    by_cases hvs : vs = []
    · rw [if_pos hvs]
      exact ⟨[], by simp⟩
    rw [if_neg hvs]
    by_cases ht : settings.tax_account = ""
    · rw [if_pos ht]
      by_cases hz : settings.nullrechnungen_unterdruecken = true ∧
          env.grandTotal (assembleInvoice env settings cust vs) = 0
      · rw [if_pos hz]
        exact ⟨_, rfl⟩
      rw [if_neg hz]
      by_cases hins : env.insertInvoiceFails ref = true
      · rw [if_pos hins]
        exact ⟨_, by rw [List.append_assoc]⟩
      · rw [if_neg hins]
        exact ⟨_, rfl⟩
    · rw [if_neg ht]
      by_cases hz : settings.nullrechnungen_unterdruecken = true ∧
          env.grandTotal (assembleInvoice env settings cust vs) = 0
      · rw [if_pos hz]
        exact ⟨[], by simp⟩
      rw [if_neg hz]
      by_cases hins : env.insertInvoiceFails ref = true
      · rw [if_pos hins]
        exact ⟨_, rfl⟩
      · rw [if_neg hins]
        exact ⟨[], by simp⟩

theorem create_safe_some (env : Env) (settings : Settings) (ref : String)
    (vs : List ResolvedItem) (errors : List String) (inv : Invoice) (errs2 : List String)
    (h : create_hornetsecurity_sales_invoice_safe env settings ref vs errors =
      (some inv, errs2)) :
    (inv.items.map (fun it => it.qty)).sum = (vs.map (fun v => v.total_qty)).sum := by
  unfold create_hornetsecurity_sales_invoice_safe at h
  cases hc : lookupCustomer env ref with
  | none => rw [hc] at h; dsimp only at h; simp at h
  | some cust =>
    rw [hc] at h
    dsimp only at h
    by_cases hvs : vs = []
    · rw [if_pos hvs] at h; simp at h
    rw [if_neg hvs] at h
    by_cases hz : settings.nullrechnungen_unterdruecken = true ∧
        env.grandTotal (assembleInvoice env settings cust vs) = 0
    · rw [if_pos hz] at h; simp at h
    rw [if_neg hz] at h
    by_cases hins : env.insertInvoiceFails ref = true
    · rw [if_pos hins] at h; simp at h
    · rw [if_neg hins] at h
      simp only [Prod.mk.injEq, Option.some.injEq] at h
      rw [← h.1]
      exact invoice_items_sum env settings cust vs

theorem create_safe_none_len (env : Env) (settings : Settings) (ref : String)
    (vs : List ResolvedItem) (errors : List String)
    (hnosup : settings.nullrechnungen_unterdruecken = false) (hvs : vs ≠ [])
    (h : (create_hornetsecurity_sales_invoice_safe env settings ref vs errors).1 = none) :
    errors.length <
      (create_hornetsecurity_sales_invoice_safe env settings ref vs errors).2.length := by
  unfold create_hornetsecurity_sales_invoice_safe at h ⊢
  cases hc : lookupCustomer env ref with
  | none =>
    dsimp only
    simp
  | some cust =>
    rw [hc] at h
    dsimp only at h ⊢
    rw [if_neg hvs] at h ⊢
    have hz : ¬(settings.nullrechnungen_unterdruecken = true ∧
        env.grandTotal (assembleInvoice env settings cust vs) = 0) := by
      rw [hnosup]; simp
    rw [if_neg hz] at h ⊢
    by_cases hins : env.insertInvoiceFails ref = true
    · rw [if_pos hins]
      by_cases ht : settings.tax_account = ""
      · rw [if_pos ht]; simp
      · rw [if_neg ht]; simp
    · rw [if_neg hins] at h
      simp at h

theorem invoicesQtySum_append (invs : List Invoice) (inv : Invoice) :
    invoicesQtySum (invs ++ [inv]) =
      invoicesQtySum invs + (inv.items.map (fun it => it.qty)).sum := by
  simp [invoicesQtySum]

theorem customerStep_none (env : Env) (settings : Settings) (st : LoopState)
    (e : String × List LineItem) (hc : lookupCustomer env e.1 = none) :
    customerStep env settings st e =
      { st with errors := st.errors ++ ["Customer not found for reference number: " ++ e.1] } := by
  simp only [customerStep, hc]

theorem customerStep_novalid (env : Env) (settings : Settings) (st : LoopState)
    (e : String × List LineItem) (cust : CustomerRec)
    (hc : lookupCustomer env e.1 = some cust)
    (hv : (validate_and_process_items_hornetsecurity env settings e.1 e.2
      st.items st.errors st.created_items_log).valid_items = []) :
    customerStep env settings st e =
      { st with
          items := (validate_and_process_items_hornetsecurity env settings e.1 e.2
            st.items st.errors st.created_items_log).items,
          created_items_log := (validate_and_process_items_hornetsecurity env settings e.1 e.2
            st.items st.errors st.created_items_log).log,
          errors := (validate_and_process_items_hornetsecurity env settings e.1 e.2
            st.items st.errors st.created_items_log).errors ++
            ["No valid items found for customer " ++ e.1] } := by
  simp only [customerStep, hc]
  rw [if_pos hv]

theorem customerStep_failed (env : Env) (settings : Settings) (st : LoopState)
    (e : String × List LineItem) (cust : CustomerRec) (errors2 : List String)
    (hc : lookupCustomer env e.1 = some cust)
    (hv : (validate_and_process_items_hornetsecurity env settings e.1 e.2
      st.items st.errors st.created_items_log).valid_items ≠ [])
    (hcr : create_hornetsecurity_sales_invoice_safe env settings e.1
      (validate_and_process_items_hornetsecurity env settings e.1 e.2
        st.items st.errors st.created_items_log).valid_items
      (validate_and_process_items_hornetsecurity env settings e.1 e.2
        st.items st.errors st.created_items_log).errors = (none, errors2)) :
    customerStep env settings st e =
      { st with
          items := (validate_and_process_items_hornetsecurity env settings e.1 e.2
            st.items st.errors st.created_items_log).items,
          created_items_log := (validate_and_process_items_hornetsecurity env settings e.1 e.2
            st.items st.errors st.created_items_log).log,
          errors := errors2 } := by
  simp only [customerStep, hc]
  rw [if_neg hv, hcr]

theorem customerStep_created (env : Env) (settings : Settings) (st : LoopState)
    (e : String × List LineItem) (cust : CustomerRec) (inv : Invoice) (errors2 : List String)
    (hc : lookupCustomer env e.1 = some cust)
    (hv : (validate_and_process_items_hornetsecurity env settings e.1 e.2
      st.items st.errors st.created_items_log).valid_items ≠ [])
    (hcr : create_hornetsecurity_sales_invoice_safe env settings e.1
      (validate_and_process_items_hornetsecurity env settings e.1 e.2
        st.items st.errors st.created_items_log).valid_items
      (validate_and_process_items_hornetsecurity env settings e.1 e.2
        st.items st.errors st.created_items_log).errors = (some inv, errors2)) :
    customerStep env settings st e =
      { items := (validate_and_process_items_hornetsecurity env settings e.1 e.2
          st.items st.errors st.created_items_log).items,
        invoices := st.invoices ++ [inv],
        invoices_created := st.invoices_created + 1,
        total_licenses_after := st.total_licenses_after +
          (inv.items.map (fun it => it.qty)).sum,
        successful_customers := st.successful_customers ++ [e.1],
        errors := errors2,
        created_items_log := (validate_and_process_items_hornetsecurity env settings e.1 e.2
          st.items st.errors st.created_items_log).log } := by
  simp only [customerStep, hc]
  rw [if_neg hv, hcr]

theorem validate_errors_mono (env : Env) (settings : Settings) (ref : String)
    (ls : List LineItem) (items : List ItemRec) (errors log : List String) :
    ∃ d, (validate_and_process_items_hornetsecurity env settings ref ls
      items errors log).errors = errors ++ d :=
  validateLoop_errors_mono env settings ref ls items errors log

theorem validate_sum_le (env : Env) (settings : Settings) (ref : String)
    (ls : List LineItem) (items : List ItemRec) (errors log : List String)
    (hnn : ∀ l ∈ ls, 0 ≤ l.total_qty) :
    (((validate_and_process_items_hornetsecurity env settings ref ls items errors
      log).valid_items.map (fun v => v.total_qty)).sum ≤
      (ls.map (fun l => l.total_qty)).sum) :=
  validateLoop_sum_le env settings ref ls items errors log hnn

theorem validate_noerr (env : Env) (settings : Settings) (ref : String)
    (ls : List LineItem) (items : List ItemRec) (errors log : List String)
    (h : (validate_and_process_items_hornetsecurity env settings ref ls
      items errors log).errors = errors) :
    ((validate_and_process_items_hornetsecurity env settings ref ls items errors
      log).valid_items.map (fun v => v.total_qty)) =
      ls.map (fun l => l.total_qty) :=
  validateLoop_noerr env settings ref ls items errors log h

theorem customerStep_after_invoices (env : Env) (settings : Settings) (st : LoopState)
    (e : String × List LineItem)
    (h : st.total_licenses_after = invoicesQtySum st.invoices) :
    (customerStep env settings st e).total_licenses_after =
      invoicesQtySum (customerStep env settings st e).invoices := by
  cases hc : lookupCustomer env e.1 with
  | none => rw [customerStep_none env settings st e hc]; exact h
  | some cust =>
    by_cases hv : (validate_and_process_items_hornetsecurity env settings e.1 e.2
        st.items st.errors st.created_items_log).valid_items = []
    · rw [customerStep_novalid env settings st e cust hc hv]; exact h
    · cases hcr : create_hornetsecurity_sales_invoice_safe env settings e.1
          (validate_and_process_items_hornetsecurity env settings e.1 e.2
            st.items st.errors st.created_items_log).valid_items
          (validate_and_process_items_hornetsecurity env settings e.1 e.2
            st.items st.errors st.created_items_log).errors with
      | mk invq errors2 =>
        cases invq with
        | none => rw [customerStep_failed env settings st e cust errors2 hc hv hcr]; exact h
        | some inv =>
          rw [customerStep_created env settings st e cust inv errors2 hc hv hcr]
          dsimp only
          rw [invoicesQtySum_append, h]

theorem customerStep_errors_mono (env : Env) (settings : Settings) (st : LoopState)
    (e : String × List LineItem) :
    ∃ d, (customerStep env settings st e).errors = st.errors ++ d := by
  obtain ⟨d1, hd1⟩ := validate_errors_mono env settings e.1 e.2 st.items st.errors
    st.created_items_log
  cases hc : lookupCustomer env e.1 with
  | none => rw [customerStep_none env settings st e hc]; exact ⟨_, rfl⟩
  | some cust =>
    by_cases hv : (validate_and_process_items_hornetsecurity env settings e.1 e.2
        st.items st.errors st.created_items_log).valid_items = []
    · rw [customerStep_novalid env settings st e cust hc hv]
      dsimp only
      refine ⟨d1 ++ ["No valid items found for customer " ++ e.1], ?_⟩
      rw [hd1, List.append_assoc]
    · obtain ⟨d2, hd2⟩ := create_safe_errors_mono env settings e.1
        (validate_and_process_items_hornetsecurity env settings e.1 e.2
          st.items st.errors st.created_items_log).valid_items
        (validate_and_process_items_hornetsecurity env settings e.1 e.2
          st.items st.errors st.created_items_log).errors
      cases hcr : create_hornetsecurity_sales_invoice_safe env settings e.1
          (validate_and_process_items_hornetsecurity env settings e.1 e.2
            st.items st.errors st.created_items_log).valid_items
          (validate_and_process_items_hornetsecurity env settings e.1 e.2
            st.items st.errors st.created_items_log).errors with
      | mk invq errors2 =>
        rw [hcr] at hd2
        dsimp only at hd2
        cases invq with
        | none =>
          rw [customerStep_failed env settings st e cust errors2 hc hv hcr]
          dsimp only
          refine ⟨d1 ++ d2, ?_⟩
          rw [hd2, hd1, List.append_assoc]
        | some inv =>
          rw [customerStep_created env settings st e cust inv errors2 hc hv hcr]
          dsimp only
          refine ⟨d1 ++ d2, ?_⟩
          rw [hd2, hd1, List.append_assoc]

theorem customerStep_after_le (env : Env) (settings : Settings) (st : LoopState)
    (e : String × List LineItem) (hpos : ∀ l ∈ e.2, 0 < l.total_qty) :
    (customerStep env settings st e).total_licenses_after ≤
      st.total_licenses_after + (e.2.map (fun l => l.total_qty)).sum := by
  have hnn : (0 : ℚ) ≤ (e.2.map (fun l => l.total_qty)).sum := by
    apply List.sum_nonneg
    intro x hx
    rcases List.mem_map.mp hx with ⟨l, hl, rfl⟩
    exact le_of_lt (hpos l hl)
  cases hc : lookupCustomer env e.1 with
  | none =>
    rw [customerStep_none env settings st e hc]
    dsimp only
    linarith
  | some cust =>
    by_cases hv : (validate_and_process_items_hornetsecurity env settings e.1 e.2
        st.items st.errors st.created_items_log).valid_items = []
    · rw [customerStep_novalid env settings st e cust hc hv]
      dsimp only
      linarith
    · cases hcr : create_hornetsecurity_sales_invoice_safe env settings e.1
          (validate_and_process_items_hornetsecurity env settings e.1 e.2
            st.items st.errors st.created_items_log).valid_items
          (validate_and_process_items_hornetsecurity env settings e.1 e.2
            st.items st.errors st.created_items_log).errors with
      | mk invq errors2 =>
        cases invq with
        | none =>
          rw [customerStep_failed env settings st e cust errors2 hc hv hcr]
          dsimp only
          linarith
        | some inv =>
          rw [customerStep_created env settings st e cust inv errors2 hc hv hcr]
          dsimp only
          have hsum := create_safe_some env settings e.1 _ _ inv errors2 hcr
          have hle := validate_sum_le env settings e.1 e.2 st.items st.errors
            st.created_items_log (fun l hl => le_of_lt (hpos l hl))
          rw [hsum]
          linarith [hle]

theorem customerStep_after_eq (env : Env) (settings : Settings) (st : LoopState)
    (e : String × List LineItem)
    (hnosup : settings.nullrechnungen_unterdruecken = false)
    (herr : (customerStep env settings st e).errors = st.errors) :
    (customerStep env settings st e).total_licenses_after =
      st.total_licenses_after + (e.2.map (fun l => l.total_qty)).sum := by
  obtain ⟨d1, hd1⟩ := validate_errors_mono env settings e.1 e.2 st.items st.errors
    st.created_items_log
  cases hc : lookupCustomer env e.1 with
  | none =>
    exfalso
    rw [customerStep_none env settings st e hc] at herr
    dsimp only at herr
    have := congrArg List.length herr
    simp at this
  | some cust =>
    by_cases hv : (validate_and_process_items_hornetsecurity env settings e.1 e.2
        st.items st.errors st.created_items_log).valid_items = []
    · exfalso
      rw [customerStep_novalid env settings st e cust hc hv] at herr
      dsimp only at herr
      rw [hd1, List.append_assoc] at herr
      have h2 : st.errors ++ (d1 ++ ["No valid items found for customer " ++ e.1]) =
          st.errors ++ [] := by simp only [List.append_nil]; exact herr
      have h3 := List.append_cancel_left h2
      simp at h3
    · cases hcr : create_hornetsecurity_sales_invoice_safe env settings e.1
          (validate_and_process_items_hornetsecurity env settings e.1 e.2
            st.items st.errors st.created_items_log).valid_items
          (validate_and_process_items_hornetsecurity env settings e.1 e.2
            st.items st.errors st.created_items_log).errors with
      | mk invq errors2 =>
        cases invq with
        | none =>
          exfalso
          rw [customerStep_failed env settings st e cust errors2 hc hv hcr] at herr
          dsimp only at herr
          have hlen := create_safe_none_len env settings e.1
            (validate_and_process_items_hornetsecurity env settings e.1 e.2
              st.items st.errors st.created_items_log).valid_items
            (validate_and_process_items_hornetsecurity env settings e.1 e.2
              st.items st.errors st.created_items_log).errors hnosup hv (by rw [hcr])
          rw [hcr] at hlen
          dsimp only at hlen
          have hd1len := congrArg List.length hd1
          have herrlen := congrArg List.length herr
          simp [List.length_append] at hd1len herrlen
          omega
        | some inv =>
          rw [customerStep_created env settings st e cust inv errors2 hc hv hcr] at herr ⊢
          dsimp only at herr ⊢
          obtain ⟨d2, hd2⟩ := create_safe_errors_mono env settings e.1
            (validate_and_process_items_hornetsecurity env settings e.1 e.2
              st.items st.errors st.created_items_log).valid_items
            (validate_and_process_items_hornetsecurity env settings e.1 e.2
              st.items st.errors st.created_items_log).errors
          rw [hcr] at hd2
          dsimp only at hd2
          have hnil : d1 ++ d2 = [] := by
            have : st.errors ++ (d1 ++ d2) = st.errors ++ [] := by
              rw [← List.append_assoc, ← hd1, ← hd2, herr]
              simp
            exact List.append_cancel_left this
          rcases List.append_eq_nil.mp hnil with ⟨hnil1, _⟩
          have hverr : (validate_and_process_items_hornetsecurity env settings e.1 e.2
              st.items st.errors st.created_items_log).errors = st.errors := by
            rw [hd1, hnil1]
            simp
          have hmaps := validate_noerr env settings e.1 e.2 st.items st.errors
            st.created_items_log hverr
          have hsum := create_safe_some env settings e.1 _ _ inv errors2 hcr
          rw [hsum]
          have : ((validate_and_process_items_hornetsecurity env settings e.1 e.2
              st.items st.errors st.created_items_log).valid_items.map
                (fun v => v.total_qty)).sum = (e.2.map (fun l => l.total_qty)).sum := by
            rw [hmaps]
          rw [this]

theorem loop_after_invoices (env : Env) (settings : Settings) :
    ∀ (entries : List (String × List LineItem)) (st : LoopState),
      st.total_licenses_after = invoicesQtySum st.invoices →
      (entries.foldl (customerStep env settings) st).total_licenses_after =
        invoicesQtySum (entries.foldl (customerStep env settings) st).invoices := by
  intro entries
  induction entries with
  | nil => intro st h; exact h
  | cons e rest ih =>
    intro st h
    exact ih (customerStep env settings st e)
      (customerStep_after_invoices env settings st e h)

theorem loop_errors_mono (env : Env) (settings : Settings) :
    ∀ (entries : List (String × List LineItem)) (st : LoopState),
      ∃ d, (entries.foldl (customerStep env settings) st).errors = st.errors ++ d := by
  intro entries
  induction entries with
  | nil => intro st; exact ⟨[], by simp⟩
  | cons e rest ih =>
    intro st
    obtain ⟨d1, hd1⟩ := customerStep_errors_mono env settings st e
    obtain ⟨d2, hd2⟩ := ih (customerStep env settings st e)
    exact ⟨d1 ++ d2, by rw [List.foldl_cons, hd2, hd1, List.append_assoc]⟩

theorem loop_after_le (env : Env) (settings : Settings) :
    ∀ (entries : List (String × List LineItem)) (st : LoopState),
      (∀ e ∈ entries, ∀ l ∈ e.2, 0 < l.total_qty) →
      (entries.foldl (customerStep env settings) st).total_licenses_after ≤
        st.total_licenses_after + ciQtySum entries := by
  intro entries
  induction entries with
  | nil => intro st _; simp [ciQtySum]
  | cons e rest ih =>
    intro st hpos
    rw [List.foldl_cons]
    refine le_trans (ih (customerStep env settings st e)
      (fun x hx l hl => hpos x (List.mem_cons_of_mem e hx) l hl)) ?_
    have hstep := customerStep_after_le env settings st e
      (fun l hl => hpos e (List.mem_cons_self e rest) l hl)
    unfold ciQtySum
    simp only [List.map_cons, List.sum_cons]
    linarith [hstep]

theorem loop_after_eq (env : Env) (settings : Settings)
    (hnosup : settings.nullrechnungen_unterdruecken = false) :
    ∀ (entries : List (String × List LineItem)) (st : LoopState),
      (entries.foldl (customerStep env settings) st).errors = st.errors →
      (entries.foldl (customerStep env settings) st).total_licenses_after =
        st.total_licenses_after + ciQtySum entries := by
  intro entries
  induction entries with
  | nil => intro st _; simp [ciQtySum]
  | cons e rest ih =>
    intro st herr
    rw [List.foldl_cons] at herr ⊢
    obtain ⟨d1, hd1⟩ := customerStep_errors_mono env settings st e
    obtain ⟨d2, hd2⟩ := loop_errors_mono env settings rest (customerStep env settings st e)
    have hnil : d1 ++ d2 = [] := by
      have : st.errors ++ (d1 ++ d2) = st.errors ++ [] := by
        rw [← List.append_assoc, ← hd1, ← hd2, herr]
        simp
      exact List.append_cancel_left this
    rcases List.append_eq_nil.mp hnil with ⟨hnil1, hnil2⟩
    have hstep_err : (customerStep env settings st e).errors = st.errors := by
      rw [hd1, hnil1]
      simp
    have hstep := customerStep_after_eq env settings st e hnosup hstep_err
    have hrest := ih (customerStep env settings st e) (by rw [hd2, hnil2, hstep_err]; simp)
    rw [hrest, hstep]
    unfold ciQtySum
    simp only [List.map_cons, List.sum_cons]
    ring

theorem checks_of_no_errors (rows : List Row) (h : (parsePhase rows).errors = []) :
    ∀ r ∈ rows, rowChecksOk r := by
  intro r hr
  obtain ⟨n, hget⟩ := List.mem_iff_get.mp hr
  by_cases c1 : pstrip r.customerRef = ""
  · exfalso
    have hm := parseLoop_error_at rows 0 ⟨[], 0, []⟩ n.1 n.2 _ (by
      rw [hget]
      unfold rowErrMsg
      rw [if_pos c1])
    rw [show parseLoop 0 rows ⟨[], 0, []⟩ = parsePhase rows from rfl, h] at hm
    simp at hm
  by_cases c2 : pstrip r.productCode = ""
  · exfalso
    have hm := parseLoop_error_at rows 0 ⟨[], 0, []⟩ n.1 n.2 _ (by
      rw [hget]
      unfold rowErrMsg
      rw [if_neg c1, if_pos c2])
    rw [show parseLoop 0 rows ⟨[], 0, []⟩ = parsePhase rows from rfl, h] at hm
    simp at hm
  refine ⟨c1, c2, ?_⟩
  intro hup
  by_cases c3 : pstrip r.product = ""
  · exfalso
    have hm := parseLoop_error_at rows 0 ⟨[], 0, []⟩ n.1 n.2 _ (by
      rw [hget]
      unfold rowErrMsg
      rw [if_neg c1, if_neg c2, if_pos ⟨hup, c3⟩])
    rw [show parseLoop 0 rows ⟨[], 0, []⟩ = parsePhase rows from rfl, h] at hm
    simp at hm
  · exact c3

theorem groups_rows_nonneg (rows : List Row)
    (hnn : ∀ r ∈ rows, 0 ≤ convert_german_number r.licensesCount) :
    ∀ p ∈ (parsePhase rows).groups, ∀ r ∈ p.2.rows,
      0 ≤ convert_german_number r.licensesCount :=
  fun p hp r hr =>
    hnn r (parsePhase_grouped_mem rows r (mem_groupedRows.mpr ⟨p, hp, hr⟩)).1

/-- C1 (amended): for every run, total_licenses_before is the sum of the
absolute converted license counts over the rows passing per-row
validation; total_licenses_after is the sum of the quantities on the line
items of the invoices actually saved; after never exceeds before (in
particular when customer or item lookups fail).  The original claim's
equality on every successful run is false — line 81 sums absolute values
while the aggregation nets signed quantities, so a negative count breaks
it even with no error anywhere (see the counterexample) — equality holds
when every row resolves successfully AND every row's licenses count is
non-negative (no error collected, zero-amount suppression off). -/
theorem C1_reconciliation (env : Env) (settings : Settings) (rows : List Row) :
    (runImport env settings rows).total_licenses_before = beforeSpecSum rows ∧
    (runImport env settings rows).total_licenses_after =
      invoicesQtySum (runImport env settings rows).invoices ∧
    (runImport env settings rows).total_licenses_after ≤
      (runImport env settings rows).total_licenses_before ∧
    ((∀ r ∈ rows, 0 ≤ convert_german_number r.licensesCount) →
      settings.nullrechnungen_unterdruecken = false →
      (runImport env settings rows).errors = [] →
      (runImport env settings rows).total_licenses_before =
        (runImport env settings rows).total_licenses_after) := by
  have hb : (runImport env settings rows).total_licenses_before =
      (parsePhase rows).total_licenses_before := rfl
  have ha : (runImport env settings rows).total_licenses_after =
      ((buildCustomerInvoices (parsePhase rows).groups).foldl (customerStep env settings)
        ⟨env.items0, [], 0, 0, [], (parsePhase rows).errors, []⟩).total_licenses_after := rfl
  have hi : (runImport env settings rows).invoices =
      ((buildCustomerInvoices (parsePhase rows).groups).foldl (customerStep env settings)
        ⟨env.items0, [], 0, 0, [], (parsePhase rows).errors, []⟩).invoices := rfl
  have he : (runImport env settings rows).errors =
      ((buildCustomerInvoices (parsePhase rows).groups).foldl (customerStep env settings)
        ⟨env.items0, [], 0, 0, [], (parsePhase rows).errors, []⟩).errors := rfl
  have hpos : ∀ e ∈ buildCustomerInvoices (parsePhase rows).groups, ∀ l ∈ e.2,
      0 < l.total_qty :=
    buildCustomerInvoices_allPos (parsePhase rows).groups [] (by intro e he; simp at he)
  refine ⟨hb.trans (parsePhase_before rows), ?_, ?_, ?_⟩
  · rw [ha, hi]
    exact loop_after_invoices env settings (buildCustomerInvoices (parsePhase rows).groups)
      ⟨env.items0, [], 0, 0, [], (parsePhase rows).errors, []⟩ (by simp [invoicesQtySum])
  · rw [ha, hb]
    have h1 := loop_after_le env settings (buildCustomerInvoices (parsePhase rows).groups)
      ⟨env.items0, [], 0, 0, [], (parsePhase rows).errors, []⟩ hpos
    dsimp only at h1
    have h2 := buildLoop_sum_le (parsePhase rows).groups []
    have h3 := parsePhase_absSum_le rows
    have h4 : ciQtySum ([] : List (String × List LineItem)) = 0 := by simp [ciQtySum]
    unfold buildCustomerInvoices at h1 ⊢
    linarith [h1, h2, h3]
  · intro hnn hnosup herr
    rw [he] at herr
    obtain ⟨d, hd⟩ := loop_errors_mono env settings
      (buildCustomerInvoices (parsePhase rows).groups)
      ⟨env.items0, [], 0, 0, [], (parsePhase rows).errors, []⟩
    rw [herr] at hd
    dsimp only at hd
    have hpserr : (parsePhase rows).errors = [] := (List.append_eq_nil.mp hd.symm).1
    have hchecks := checks_of_no_errors rows hpserr
    have habs := parsePhase_absSum_eq rows hchecks
    have hbuild := buildLoop_sum_eq (parsePhase rows).groups []
      (groups_rows_nonneg rows hnn)
    have h4 : ciQtySum ([] : List (String × List LineItem)) = 0 := by simp [ciQtySum]
    have hloop := loop_after_eq env settings hnosup
      (buildCustomerInvoices (parsePhase rows).groups)
      ⟨env.items0, [], 0, 0, [], (parsePhase rows).errors, []⟩
      (by rw [← he] at herr ⊢; rw [herr]; dsimp only; exact hpserr.symm)
    dsimp only at hloop
    rw [ha, hb]
    unfold buildCustomerInvoices at hbuild hloop ⊢
    linarith [habs, hbuild, hloop]


theorem C1_reconciliation_witness :
    0 ≤ convert_german_number rowA.licensesCount ∧
    baseSettings.nullrechnungen_unterdruecken = false ∧
    (runImport envC1 baseSettings [rowA]).errors = [] ∧
    (runImport envC1 baseSettings [rowA]).total_licenses_before =
      (runImport envC1 baseSettings [rowA]).total_licenses_after := by
  have hnn : 0 ≤ convert_german_number rowA.licensesCount := by
    norm_num +decide [convert_german_number, commaToDot, parsePyFloat, parseCore,
      stripChars, parseSign, digitsToNat, applySign, commaDot, isWs, rowA]
  have herr : (runImport envC1 baseSettings [rowA]).errors = [] := by
    norm_num +decide [runImport, parsePhase, parseLoop, processRow, addToGroup, alFind,
      buildCustomerInvoices, buildStep, aggregateRows, aggStep, alUpdate,
      customerStep, lookupCustomer, validate_and_process_items_hornetsecurity,
      validateLoop, validateStep, lookupItemByExt, resolveWith,
      create_hornetsecurity_sales_invoice_safe, assembleInvoice, get_invoice_currency,
      get_conversion_rate, get_customer_discount, mkInvItem, firstNonempty,
      get_currency_mapping, exactExchangeLookup, latestExchangeLookup,
      convert_german_number, commaToDot, parsePyFloat, parseCore, stripChars,
      parseSign, digitsToNat, applySign, commaDot, isWs,
      envC1, baseEnv, baseSettings, rowA]
  exact ⟨hnn, rfl, herr,
    (C1_reconciliation envC1 baseSettings [rowA]).2.2.2
      (by intro r hr; rw [List.mem_singleton] at hr; rw [hr]; exact hnn) rfl herr⟩

/-- C1 counterexample: with license counts -2 and 5 on one customer/product,
every lookup succeeds, the invoice saves and no error is recorded (and
zero-amount suppression is off), yet total_licenses_before = 7 while
total_licenses_after = 3 — line 81 sums absolute values while the
aggregation nets the signed quantities, so the claimed equality on a fully
successful run is false as originally stated. -/
theorem C1_reconciliation_counterexample :
    (runImport envC1 baseSettings [rowNeg, rowPos5]).errors = [] ∧
    (runImport envC1 baseSettings [rowNeg, rowPos5]).invoices_created = 1 ∧
    baseSettings.nullrechnungen_unterdruecken = false ∧
    (runImport envC1 baseSettings [rowNeg, rowPos5]).total_licenses_before = 7 ∧
    (runImport envC1 baseSettings [rowNeg, rowPos5]).total_licenses_after = 3 ∧
    (runImport envC1 baseSettings [rowNeg, rowPos5]).total_licenses_before ≠
      (runImport envC1 baseSettings [rowNeg, rowPos5]).total_licenses_after := by
  have h2 : ('2').toNat = 50 := rfl
  have h5 : ('5').toNat = 53 := rfl
  refine ⟨?_, ?_, rfl, ?_, ?_, ?_⟩ <;>
    norm_num +decide [h2, h5, runImport, parsePhase, parseLoop, processRow, addToGroup, alFind,
      buildCustomerInvoices, buildStep, aggregateRows, aggStep, alUpdate,
      customerStep, lookupCustomer, validate_and_process_items_hornetsecurity,
      validateLoop, validateStep, lookupItemByExt, resolveWith,
      create_hornetsecurity_sales_invoice_safe, assembleInvoice, get_invoice_currency,
      get_conversion_rate, get_customer_discount, mkInvItem, firstNonempty,
      get_currency_mapping, exactExchangeLookup, latestExchangeLookup,
      convert_german_number, commaToDot, parsePyFloat, parseCore, stripChars, pstrip,
      parseSign, digitsToNat, applySign, commaDot, isWs,
      envC1, baseEnv, baseSettings, rowNeg, rowPos5]

end CsvImportHornetsecurity
